import Mathlib

/-!
Shallow embedding of the pythia-mcp server's scan and serialization logic.

JavaScript numbers are modelled symbolically: `JSNum.fin q` is a finite
number carried as an exact rational, and `nan`, `inf`, `ninf` are the
IEEE special values that the scanned code can produce (division by zero,
`0 * Infinity`).  The arithmetic helpers `jsAdd`, `jsMul`, `jsDiv` follow
the JavaScript semantics on these symbolic cases; finite arithmetic is
exact (none of the verified properties depends on rounding).
JavaScript exceptions are modelled with `Except JSError`, where
`JSError.name` records the constructor used (`new Error` gives "Error").
-/

inductive JSNum where
  | nan
  | inf
  | ninf
  | fin (q : ℚ)
deriving DecidableEq, Repr

/-- Model of a JavaScript value as far as the validators inspect it:
a number, a string, `undefined` or `null`. -/
inductive JSValue where
  | num (x : JSNum)
  | str (s : String)
  | undef
  | nullv
deriving DecidableEq, Repr

structure JSError where
  name : String
  message : String
deriving DecidableEq, Repr

/-- Model of `new Error(msg)`: the error object's class name is "Error". -/
def jsErr (msg : String) : JSError := ⟨"Error", msg⟩

/-- JavaScript `+` on the symbolic number model. -/
def jsAdd : JSNum → JSNum → JSNum
  | .nan, _ => .nan
  | _, .nan => .nan
  | .inf, .ninf => .nan
  | .ninf, .inf => .nan
  | .inf, _ => .inf
  | _, .inf => .inf
  | .ninf, _ => .ninf
  | _, .ninf => .ninf
  | .fin a, .fin b => .fin (a + b)

/-- JavaScript `*` on the symbolic number model; `0 * Infinity` is NaN. -/
def jsMul : JSNum → JSNum → JSNum
  | .nan, _ => .nan
  | _, .nan => .nan
  | .inf, .inf => .inf
  | .inf, .ninf => .ninf
  | .ninf, .inf => .ninf
  | .ninf, .ninf => .inf
  | .inf, .fin b => if 0 < b then .inf else if b < 0 then .ninf else .nan
  | .fin a, .inf => if 0 < a then .inf else if a < 0 then .ninf else .nan
  | .ninf, .fin b => if 0 < b then .ninf else if b < 0 then .inf else .nan
  | .fin a, .ninf => if 0 < a then .ninf else if a < 0 then .inf else .nan
  | .fin a, .fin b => .fin (a * b)

/-- JavaScript `/` on the symbolic number model; a positive finite number
divided by zero is `Infinity`.  (The model has no negative zero.) -/
def jsDiv : JSNum → JSNum → JSNum
  | .nan, _ => .nan
  | _, .nan => .nan
  | .inf, .inf => .nan
  | .inf, .ninf => .nan
  | .ninf, .inf => .nan
  | .ninf, .ninf => .nan
  | .inf, .fin b => if 0 ≤ b then .inf else .ninf
  | .ninf, .fin b => if 0 ≤ b then .ninf else .inf
  | .fin _, .inf => .fin 0
  | .fin _, .ninf => .fin 0
  | .fin a, .fin b =>
      if b = 0 then (if 0 < a then .inf else if a < 0 then .ninf else .nan)
      else .fin (a / b)

/-- Embedding of `validateNumber(value, name, min, max)`: throws
`new Error` unless the value is a finite number inside `[min, max]`,
and returns the value unchanged otherwise. -/
def validateNumber (value : JSValue) (name : String) (mn mx : ℚ) :
    Except JSError ℚ :=
  match value with
  | .num (.fin q) =>
      if q < mn ∨ mx < q then
        .error (jsErr (name ++ " must be between " ++ toString mn ++ " and " ++ toString mx))
      else .ok q
  | _ => .error (jsErr (name ++ " must be a finite number"))

/-- Embedding of `validateCoupling`: `undefined`/`null` become NaN
(the caller substitutes a default), anything else is range-checked
against `[-100, 100]`. -/
def validateCoupling (value : JSValue) (name : String) : Except JSError JSNum :=
  if value = .undef ∨ value = .nullv then .ok .nan
  else (validateNumber value name (-100) 100).map .fin

/-- Embedding of `validateBranchingRatio`: `undefined`/`null` become NaN,
anything else is range-checked against `[0, 1]`. -/
def validateBranchingRatio (value : JSValue) (name : String) : Except JSError JSNum :=
  if value = .undef ∨ value = .nullv then .ok .nan
  else (validateNumber value name 0 1).map .fin

/-- Embedding of `validateMass`: `undefined`/`null` yield the default
125.09, anything else is range-checked against `[1, 1000]`. -/
def validateMass (value : JSValue) : Except JSError ℚ :=
  if value = .undef ∨ value = .nullv then .ok (12509/100)
  else validateNumber value "mass" 1 1000

/-- Embedding of the `CouplingParams` interface; absent fields are
`undefined`. -/
structure CouplingParams where
  mass : JSValue := .undef
  CV : JSValue := .undef
  CF : JSValue := .undef
  Ct : JSValue := .undef
  Cb : JSValue := .undef
  Cc : JSValue := .undef
  Ctau : JSValue := .undef
  Cmu : JSValue := .undef
  Cg : JSValue := .undef
  Cgamma : JSValue := .undef
  CZgamma : JSValue := .undef
  BRinv : JSValue := .undef
  BRundet : JSValue := .undef
  precision : JSValue := .undef
deriving DecidableEq, Repr

/-- Structured form of the `<reducedcouplings>` document produced by
`generateReducedCouplingsXML`; one field per emitted element.  The
textual rendering of the XML is injective in these fields, so the claims
about the document are stated on this structure. -/
structure CouplingDoc where
  mass : ℚ
  tt : JSNum
  bb : JSNum
  cc : JSNum
  tautau : JSNum
  mumu : JSNum
  ZZ : JSNum
  WW : JSNum
  gg : Option JSNum
  gammagamma : Option JSNum
  Zgamma : Option JSNum
  BRinv : JSNum
  BRundet : JSNum
  precision : String
deriving DecidableEq, Repr

/-- Model of `Number.isNaN(x) ? fallback : x`. -/
def orIfNaN (x : JSNum) (fallback : JSNum) : JSNum :=
  if x = .nan then fallback else x

/-- Model of the optional loop-induced coupling block: emitted only when
the parameter is not `undefined`, and only when validation does not
return NaN. -/
def loopCoupling (value : JSValue) (name : String) :
    Except JSError (Option JSNum) :=
  match value with
  | .undef => .ok none
  | v => do
      let c ← validateCoupling v name
      pure (if c = .nan then none else some c)

/-- Embedding of `generateReducedCouplingsXML`, following the source's
validation order: mass, precision whitelist, CV, CF, the five fermion
couplings, the two extra branching ratios, then the three optional
loop-induced couplings. -/
def generateReducedCouplingsXML (params : CouplingParams) :
    Except JSError CouplingDoc := do
  let mass ← validateMass params.mass
  let precision := if params.precision = .str "LO" then "LO" else "BEST-QCD"
  let cvVal ← validateCoupling params.CV "CV"
  let cfVal ← validateCoupling params.CF "CF"
  let CV := orIfNaN cvVal (.fin 1)
  let CF := orIfNaN cfVal (.fin 1)
  let ctVal ← validateCoupling params.Ct "Ct"
  let cbVal ← validateCoupling params.Cb "Cb"
  let ccVal ← validateCoupling params.Cc "Cc"
  let ctauVal ← validateCoupling params.Ctau "Ctau"
  let cmuVal ← validateCoupling params.Cmu "Cmu"
  let Ct := orIfNaN ctVal CF
  let Cb := orIfNaN cbVal CF
  let Cc := orIfNaN ccVal CF
  let Ctau := orIfNaN ctauVal CF
  let Cmu := orIfNaN cmuVal CF
  let brInvVal ← validateBranchingRatio params.BRinv "BRinv"
  let brUndetVal ← validateBranchingRatio params.BRundet "BRundet"
  let BRinv := orIfNaN brInvVal (.fin 0)
  let BRundet := orIfNaN brUndetVal (.fin 0)
  let gg ← loopCoupling params.Cg "Cg"
  let gammagamma ← loopCoupling params.Cgamma "Cgamma"
  let Zgamma ← loopCoupling params.CZgamma "CZgamma"
  pure { mass := mass, tt := Ct, bb := Cb, cc := Cc, tautau := Ctau,
         mumu := Cmu, ZZ := CV, WW := CV, gg := gg,
         gammagamma := gammagamma, Zgamma := Zgamma,
         BRinv := BRinv, BRundet := BRundet, precision := precision }

def ALLOWED_PRODUCTION_MODES : List String :=
  ["ggH", "VBF", "WH", "ZH", "ttH", "tH", "bbH"]

def ALLOWED_DECAY_MODES : List String :=
  ["gammagamma", "ZZ", "WW", "bb", "tautau", "mumu", "cc", "Zgamma", "gg", "invisible"]

structure MuEntry where
  prod : String
  decay : String
  value : ℚ
deriving DecidableEq, Repr

/-- Structured form of the `<signalstrengths>` document. -/
structure SignalDoc where
  mass : ℚ
  entries : List MuEntry
deriving DecidableEq, Repr

/-- Embedding of the `signalStrengths` parameters: the record is carried
as its entry list in iteration order. -/
structure SignalStrengthParams where
  mass : JSValue := .undef
  signalStrengths : List (String × JSValue)
deriving DecidableEq, Repr

/-- Model of JavaScript `key.split("_")`: splits on every underscore,
keeping empty tokens, and returns the whole string when no underscore
occurs.  (Defined by structural recursion on the character list so that
it agrees with `String.split` and evaluates definitionally.) -/
def splitUnderscore : List Char → List (List Char)
  | [] => [[]]
  | c :: rest =>
      let r := splitUnderscore rest
      if c = '_' then [] :: r
      else
        match r with
        | [] => [[c]]
        | g :: gs => (c :: g) :: gs

def jsSplitUnderscore (s : String) : List String :=
  (splitUnderscore s.data).map (fun cs => String.mk cs)

/-- Embedding of one iteration of the `Object.entries` loop in
`generateSignalStrengthsXML`: value check, key split, production-mode
check, decay-mode check, in the source's order. -/
def checkMuEntry (key : String) (value : JSValue) : Except JSError MuEntry :=
  match value with
  | .num (.fin q) =>
      if q < -100 ∨ 100 < q then
        .error (jsErr ("Invalid signal strength value for " ++ key ++
          ": must be a finite number between -100 and 100"))
      else
        match jsSplitUnderscore key with
        | [prod, decay] =>
            if ALLOWED_PRODUCTION_MODES.contains prod then
              if ALLOWED_DECAY_MODES.contains decay then
                .ok ⟨prod, decay, q⟩
              else
                .error (jsErr ("Invalid decay mode: " ++ decay ++ ". Allowed: " ++
                  String.intercalate ", " ALLOWED_DECAY_MODES))
            else
              .error (jsErr ("Invalid production mode: " ++ prod ++ ". Allowed: " ++
                String.intercalate ", " ALLOWED_PRODUCTION_MODES))
        | _ =>
            .error (jsErr ("Invalid signal strength key format: " ++ key ++
              ". Expected 'prod_decay' format."))
  | _ =>
      .error (jsErr ("Invalid signal strength value for " ++ key ++
        ": must be a finite number between -100 and 100"))

/-- Embedding of `generateSignalStrengthsXML`: mass validation, then the
entry loop; the first violation aborts the whole call, so no partial
document is ever produced. -/
def generateSignalStrengthsXML (params : SignalStrengthParams) :
    Except JSError SignalDoc := do
  let mass ← validateMass params.mass
  let entries ← params.signalStrengths.mapM (fun kv => checkMuEntry kv.1 kv.2)
  pure ⟨mass, entries⟩

/-!
Model of `parallelLimit(items, limit, fn)`.  The function starts
`min(limit, items.length)` copies of `worker()`; each worker repeatedly
executes `const index = currentIndex++` (a single synchronous step under
the JavaScript event loop, hence atomic here) and then
`results[index] = await fn(items[index], index)` (the await suspends, and
the assignment happens when the promise resolves).  The embedding is a
labelled transition system: a worker is at the loop head, awaiting the
promise for a claimed index, or done; any interleaving of worker steps is
allowed.  `claims` is a ghost counter of how many times each index was
claimed, and `f i` stands for the value produced by `fn(items[i], i)`.
-/

inductive WStatus where
  | atLoop
  | awaiting (i : ℕ)
  | done
deriving DecidableEq, Repr

structure PLState (R : Type) where
  next : ℕ
  slots : List (Option R)
  workers : List WStatus
  claims : ℕ → ℕ

/-- One scheduler step of `parallelLimit` with `n` items and per-index
results `f`. -/
inductive PLStep {R : Type} (f : ℕ → R) (n : ℕ) : PLState R → PLState R → Prop where
  | claim (s : PLState R) (w : ℕ) (hw : s.workers[w]? = some .atLoop)
      (hlt : s.next < n) :
      PLStep f n s ⟨s.next + 1, s.slots, s.workers.set w (.awaiting s.next),
        fun i => if i = s.next then s.claims i + 1 else s.claims i⟩
  | exitLoop (s : PLState R) (w : ℕ) (hw : s.workers[w]? = some .atLoop)
      (hge : n ≤ s.next) :
      PLStep f n s ⟨s.next, s.slots, s.workers.set w .done, s.claims⟩
  | resume (s : PLState R) (w i : ℕ) (hw : s.workers[w]? = some (.awaiting i)) :
      PLStep f n s ⟨s.next, s.slots.set i (some (f i)), s.workers.set w .atLoop,
        s.claims⟩

/-- Initial state of `parallelLimit`: `results` is a fresh array of
`items.length` empty slots and `min(limit, items.length)` workers start
at the loop head. -/
def PLInit (R : Type) (n limit : ℕ) : PLState R :=
  ⟨0, List.replicate n none, List.replicate (min limit n) .atLoop, fun _ => 0⟩

/-- States reachable by some interleaving of the workers. -/
def PLReach {R : Type} (f : ℕ → R) (n limit : ℕ) (s : PLState R) : Prop :=
  Relation.ReflTransGen (PLStep f n) (PLInit R n limit) s

/-- Inductive invariant of the `parallelLimit` transition system. -/
structure PLInv {R : Type} (f : ℕ → R) (n limit : ℕ) (s : PLState R) : Prop where
  slotsLen : s.slots.length = n
  workersLen : s.workers.length = min limit n
  nextLe : s.next ≤ n
  claimsLow : ∀ i : ℕ, i < s.next → s.claims i = 1
  claimsHigh : ∀ i : ℕ, s.next ≤ i → s.claims i = 0
  awaitLt : ∀ w i : ℕ, s.workers[w]? = some (WStatus.awaiting i) → i < s.next
  slotFilled : ∀ i : ℕ, i < s.next →
    (∃ w : ℕ, s.workers[w]? = some (WStatus.awaiting i)) ∨ s.slots[i]? = some (some (f i))
  doneNext : ∀ w : ℕ, s.workers[w]? = some WStatus.done → n ≤ s.next

theorem PLInv_init {R : Type} (f : ℕ → R) (n limit : ℕ) :
    PLInv f n limit (PLInit R n limit) := by
  constructor
  · simp [PLInit]
  · simp [PLInit]
  · simp [PLInit]
  · intro i hi; simp [PLInit] at hi
  · intro i _; rfl
  · intro w i h
    simp only [PLInit, List.getElem?_replicate] at h
    split at h <;> simp_all
  · intro i hi; simp [PLInit] at hi
  · intro w h
    simp only [PLInit, List.getElem?_replicate] at h
    split at h <;> simp_all

theorem PLInv_step {R : Type} {f : ℕ → R} {n limit : ℕ} {s t : PLState R}
    (hinv : PLInv f n limit s) (hstep : PLStep f n s t) : PLInv f n limit t := by
  cases hstep with
  | claim w hw hlt =>
      obtain ⟨hslots, hworkers, hnext, clow, chigh, alt, sfill, dnext⟩ := hinv
      have hwlen : w < s.workers.length := (List.getElem?_eq_some.mp hw).1
      constructor
      · simpa using hslots
      · simpa using hworkers
      · simpa using hlt
      · intro i hi
        simp only at hi ⊢
        rcases Nat.lt_succ_iff_lt_or_eq.mp hi with h | h
        · rw [if_neg (by omega)]; exact clow i h
        · rw [if_pos h]; rw [chigh i (le_of_eq h.symm)]
      · intro i hi
        simp only at hi ⊢
        rw [if_neg (by omega)]; exact chigh i (by omega)
      · intro w' i h
        simp only at h
        show i < s.next + 1
        rcases eq_or_ne w w' with rfl | hne
        · rw [List.getElem?_set_self hwlen] at h
          simp only [Option.some.injEq, WStatus.awaiting.injEq] at h
          omega
        · rw [List.getElem?_set_ne hne] at h
          exact Nat.lt_succ_of_lt (alt w' i h)
      · intro i hi
        simp only at hi ⊢
        rcases Nat.lt_succ_iff_lt_or_eq.mp hi with h | h
        · rcases sfill i h with ⟨w', hw'⟩ | hslot
          · rcases eq_or_ne w w' with rfl | hne
            · rw [hw] at hw'; simp at hw'
            · exact Or.inl ⟨w', by rw [List.getElem?_set_ne hne]; exact hw'⟩
          · exact Or.inr hslot
        · subst h
          exact Or.inl ⟨w, by rw [List.getElem?_set_self hwlen]⟩
      · intro w' h
        simp only at h ⊢
        refine Nat.le_succ_of_le ?_
        rcases eq_or_ne w w' with rfl | hne
        · rw [List.getElem?_set_self hwlen] at h; simp at h
        · rw [List.getElem?_set_ne hne] at h; exact dnext w' h
  | exitLoop w hw hge =>
      obtain ⟨hslots, hworkers, hnext, clow, chigh, alt, sfill, dnext⟩ := hinv
      have hwlen : w < s.workers.length := (List.getElem?_eq_some.mp hw).1
      constructor
      · simpa using hslots
      · simpa using hworkers
      · simpa using hnext
      · exact clow
      · exact chigh
      · intro w' i h
        simp only at h
        rcases eq_or_ne w w' with rfl | hne
        · rw [List.getElem?_set_self hwlen] at h; simp at h
        · rw [List.getElem?_set_ne hne] at h; exact alt w' i h
      · intro i hi
        simp only at hi ⊢
        rcases sfill i hi with ⟨w', hw'⟩ | hslot
        · rcases eq_or_ne w w' with rfl | hne
          · rw [hw] at hw'; simp at hw'
          · exact Or.inl ⟨w', by rw [List.getElem?_set_ne hne]; exact hw'⟩
        · exact Or.inr hslot
      · intro w' _
        exact hge
  | resume w i hw =>
      obtain ⟨hslots, hworkers, hnext, clow, chigh, alt, sfill, dnext⟩ := hinv
      have hwlen : w < s.workers.length := (List.getElem?_eq_some.mp hw).1
      have hilt : i < s.next := alt w i hw
      constructor
      · simpa using hslots
      · simpa using hworkers
      · exact hnext
      · exact clow
      · exact chigh
      · intro w' j h
        simp only at h
        rcases eq_or_ne w w' with rfl | hne
        · rw [List.getElem?_set_self hwlen] at h; simp at h
        · rw [List.getElem?_set_ne hne] at h; exact alt w' j h
      · intro j hj
        simp only at hj ⊢
        rcases eq_or_ne i j with rfl | hij
        · refine Or.inr ?_
          rw [List.getElem?_set_self (by omega)]
        · rcases sfill j hj with ⟨w', hw'⟩ | hslot
          · rcases eq_or_ne w w' with rfl | hne
            · rw [hw] at hw'
              simp only [Option.some.injEq, WStatus.awaiting.injEq] at hw'
              exact absurd hw' hij
            · exact Or.inl ⟨w', by rw [List.getElem?_set_ne hne]; exact hw'⟩
          · exact Or.inr (by rw [List.getElem?_set_ne hij]; exact hslot)
      · intro w' h
        simp only at h ⊢
        rcases eq_or_ne w w' with rfl | hne
        · rw [List.getElem?_set_self hwlen] at h; simp at h
        · rw [List.getElem?_set_ne hne] at h; exact dnext w' h

theorem PLInv_reach {R : Type} {f : ℕ → R} {n limit : ℕ} {s : PLState R}
    (h : PLReach f n limit s) : PLInv f n limit s := by
  induction h with
  | refl => exact PLInv_init f n limit
  | tail _ hstep ih => exact PLInv_step ih hstep

/-- Number of points simultaneously in flight: workers that have claimed
an index and are awaiting the promise of `fn` for it. -/
def inFlightCount {R : Type} (s : PLState R) : ℕ :=
  s.workers.countP (fun w => match w with
    | WStatus.awaiting _ => true
    | _ => false)

/-- C1: for every item count, every concurrency limit ≥ 1 and every
per-item result function, when all workers of `parallelLimit` have
finished, the result array has the same length as the input, slot `i`
holds exactly the value produced for item `i`, and the ghost counter
shows every index was claimed exactly once and no other index was ever
claimed — for every interleaving of the workers. -/
theorem parallelLimit_result_correct {R : Type} (n limit : ℕ) (f : ℕ → R)
    (s : PLState R) (hlim : 1 ≤ limit) (hreach : PLReach f n limit s)
    (hdone : ∀ w ∈ s.workers, w = WStatus.done) :
    s.slots.length = n ∧
    (∀ i : ℕ, i < n → s.slots[i]? = some (some (f i))) ∧
    (∀ i : ℕ, i < n → s.claims i = 1) ∧
    (∀ i : ℕ, n ≤ i → s.claims i = 0) := by
  obtain ⟨hslots, hworkers, hnext, clow, chigh, alt, sfill, dnext⟩ :=
    PLInv_reach hreach
  by_cases hn : n = 0
  · subst hn
    refine ⟨hslots, fun i hi => absurd hi (by omega), fun i hi => absurd hi (by omega),
      fun i _ => chigh i (by omega)⟩
  · have hlen : 0 < s.workers.length := by rw [hworkers]; omega
    have hw0 : s.workers[0]? = some WStatus.done := by
      rw [List.getElem?_eq_getElem hlen]
      exact congrArg some (hdone _ (List.getElem_mem hlen))
    have hnn : s.next = n := le_antisymm hnext (dnext 0 hw0)
    refine ⟨hslots, fun i hi => ?_, fun i hi => clow i (by omega),
      fun i hi => chigh i (by omega)⟩
    rcases sfill i (by omega) with ⟨w, hw⟩ | h
    · obtain ⟨hwl, hwe⟩ := List.getElem?_eq_some.mp hw
      have := hdone _ (hwe ▸ List.getElem_mem hwl)
      simp at this
    · exact h

/-- Concrete final state of a run of `parallelLimit` with one item and
one worker: claim index 0, resume it, exit the loop. -/
def plFinalDemo : PLState ℕ :=
  ⟨1, [some 0], [WStatus.done], fun i => if i = 0 then 0 + 1 else 0⟩

/-- Witness for C1: a complete concrete execution with one item and
limit 1 reaches an all-done state whose slot 0 holds `f 0` and whose
index-0 claim count is 1. -/
theorem parallelLimit_result_correct_witness :
    plFinalDemo.slots.length = 1 ∧ plFinalDemo.slots[0]? = some (some 0) ∧
      plFinalDemo.claims 0 = 1 := by
  have hreach : PLReach (fun _ => (0 : ℕ)) 1 1 plFinalDemo :=
    Relation.ReflTransGen.tail
      (Relation.ReflTransGen.tail
        (Relation.ReflTransGen.tail Relation.ReflTransGen.refl
          (PLStep.claim (PLInit ℕ 1 1) 0 rfl (by decide)))
        (PLStep.resume _ 0 0 rfl))
      (PLStep.exitLoop _ 0 rfl (by decide))
  have h := parallelLimit_result_correct 1 1 (fun _ => 0) plFinalDemo
    (by decide) hreach (by intro w hw; simpa [plFinalDemo] using hw)
  exact ⟨h.1, h.2.1 0 (by decide), h.2.2.1 0 (by decide)⟩

/-- C9: along every interleaving, the number of points in flight never
exceeds `min(limit, number of points)`; in particular a 6-point scan with
a worker cap of 2 never has more than 2 points in flight. -/
theorem parallelLimit_inflight_bound {R : Type} (n limit : ℕ) (f : ℕ → R)
    (s : PLState R) (hreach : PLReach f n limit s) :
    inFlightCount s ≤ min limit n ∧
      (limit = 2 → n = 6 → inFlightCount s ≤ 2) := by
  have h1 : inFlightCount s ≤ s.workers.length := List.countP_le_length _
  rw [(PLInv_reach hreach).workersLen] at h1
  refine ⟨h1, fun h2 h6 => ?_⟩
  subst h2; subst h6
  simpa using h1

/-- Witness for C9: the bound instantiated on the initial state of a
6-point, cap-2 run. -/
theorem parallelLimit_inflight_bound_witness :
    inFlightCount (PLInit ℕ 6 2) ≤ 2 :=
  (parallelLimit_inflight_bound 6 2 (fun _ => 0) _ Relation.ReflTransGen.refl).2
    rfl rfl

/-- Characterization of the success branch of `validateNumber`. -/
theorem validateNumber_ok_iff (value : JSValue) (name : String) (mn mx : ℚ)
    (q : ℚ) :
    validateNumber value name mn mx = Except.ok q ↔
      value = JSValue.num (JSNum.fin q) ∧ mn ≤ q ∧ q ≤ mx := by
  cases value with
  | num x =>
      cases x with
      | fin r =>
          simp only [validateNumber]
          split
          · rename_i hr
            constructor
            · intro h; exact absurd h (by simp)
            · rintro ⟨hv, h1, h2⟩
              injection hv with hx
              injection hx with hq
              subst hq
              rcases hr with hr | hr <;> linarith
          · rename_i hr
            push_neg at hr
            simp only [Except.ok.injEq, JSValue.num.injEq, JSNum.fin.injEq]
            constructor
            · rintro rfl; exact ⟨rfl, hr.1, hr.2⟩
            · rintro ⟨rfl, _, _⟩; rfl
      | nan => simp [validateNumber]
      | inf => simp [validateNumber]
      | ninf => simp [validateNumber]
  | str s => simp [validateNumber]
  | undef => simp [validateNumber]
  | nullv => simp [validateNumber]

/-- Every failure of `validateNumber` carries a plain `Error`. -/
theorem validateNumber_error_class (value : JSValue) (name : String)
    (mn mx : ℚ) (e : JSError)
    (h : validateNumber value name mn mx = Except.error e) :
    e.name = "Error" := by
  cases value with
  | num x =>
      cases x with
      | fin r =>
          simp only [validateNumber] at h
          split at h
          · injection h with h'; rw [← h']; rfl
          · exact absurd h (by simp)
      | nan =>
          simp only [validateNumber] at h
          injection h with h'; rw [← h']; rfl
      | inf =>
          simp only [validateNumber] at h
          injection h with h'; rw [← h']; rfl
      | ninf =>
          simp only [validateNumber] at h
          injection h with h'; rw [← h']; rfl
  | str s =>
      simp only [validateNumber] at h
      injection h with h'; rw [← h']; rfl
  | undef =>
      simp only [validateNumber] at h
      injection h with h'; rw [← h']; rfl
  | nullv =>
      simp only [validateNumber] at h
      injection h with h'; rw [← h']; rfl

/-- C6 counterexample: `validateNumber` rejects NaN, but the thrown
object is a plain `Error`, not a `RangeError`. -/
theorem validateNumber_error_class_counterexample :
    validateNumber (JSValue.num JSNum.nan) "value" 0 1 =
      Except.error ⟨"Error", "value must be a finite number"⟩ ∧
    ("Error" : String) ≠ "RangeError" :=
  ⟨rfl, by decide⟩

/-- C6 (amended): `validateNumber(value, name, min, max)` fails with a
plain `Error` whenever the value is not a finite number or lies outside
the closed interval `[min, max]` — so for NaN, Infinity, -Infinity,
non-number inputs, values below min and values above max — and succeeds
returning the value unchanged exactly on in-range finite numbers. -/
theorem validateNumber_spec (value : JSValue) (name : String) (mn mx : ℚ) :
    (∀ q : ℚ, validateNumber value name mn mx = Except.ok q ↔
      value = JSValue.num (JSNum.fin q) ∧ mn ≤ q ∧ q ≤ mx) ∧
    (∀ e : JSError, validateNumber value name mn mx = Except.error e →
      e.name = "Error") :=
  ⟨fun q => validateNumber_ok_iff value name mn mx q,
   fun e => validateNumber_error_class value name mn mx e⟩

/-- Witness for C6: the in-range finite number 5 passes a `[0, 10]`
check unchanged. -/
theorem validateNumber_spec_witness :
    validateNumber (JSValue.num (JSNum.fin 5)) "x" 0 10 = Except.ok 5 :=
  ((validateNumber_spec (JSValue.num (JSNum.fin 5)) "x" 0 10).1 5).mpr
    ⟨rfl, by norm_num, by norm_num⟩

/-- Validity of one signal-strength entry, as stated by the spec: the
key splits into exactly two tokens drawn from the two closed
enumerations (which contain no empty string), and the value is a finite
number within `[-100, 100]`. -/
def muEntryValid (k : String) (v : JSValue) : Prop :=
  (∃ q : ℚ, v = JSValue.num (JSNum.fin q) ∧ -100 ≤ q ∧ q ≤ 100) ∧
  ∃ p d : String, jsSplitUnderscore k = [p, d] ∧
    p ∈ ALLOWED_PRODUCTION_MODES ∧ d ∈ ALLOWED_DECAY_MODES

theorem exceptBind_ok {α β : Type} {x : Except JSError α}
    {g : α → Except JSError β} {b : β} :
    x >>= g = Except.ok b ↔ ∃ a, x = Except.ok a ∧ g a = Except.ok b := by
  cases x with
  | ok a => simp [Bind.bind, Except.bind]
  | error e => simp [Bind.bind, Except.bind]

theorem checkMuEntry_ok_iff (k : String) (v : JSValue) :
    (∃ m, checkMuEntry k v = Except.ok m) ↔ muEntryValid k v := by
  constructor
  · rintro ⟨m, hm⟩
    cases v with
    | num x =>
        cases x with
        | fin q =>
            simp only [checkMuEntry] at hm
            split at hm
            · exact absurd hm (by simp)
            · rename_i hq
              push_neg at hq
              split at hm
              · rename_i p d hsp
                split at hm
                · split at hm
                  · rename_i hp hd
                    exact ⟨⟨q, rfl, hq.1, hq.2⟩, p, d, hsp,
                      List.elem_iff.mp hp, List.elem_iff.mp hd⟩
                  · exact absurd hm (by simp)
                · exact absurd hm (by simp)
              · exact absurd hm (by simp)
        | nan => exact absurd hm (by simp [checkMuEntry])
        | inf => exact absurd hm (by simp [checkMuEntry])
        | ninf => exact absurd hm (by simp [checkMuEntry])
    | str s => exact absurd hm (by simp [checkMuEntry])
    | undef => exact absurd hm (by simp [checkMuEntry])
    | nullv => exact absurd hm (by simp [checkMuEntry])
  · rintro ⟨⟨q, rfl, h1, h2⟩, p, d, hsp, hp, hd⟩
    refine ⟨⟨p, d, q⟩, ?_⟩
    simp only [checkMuEntry]
    rw [if_neg (by rintro (h | h) <;> linarith)]
    rw [hsp]
    have hp' : ALLOWED_PRODUCTION_MODES.contains p = true := List.elem_iff.mpr hp
    have hd' : ALLOWED_DECAY_MODES.contains d = true := List.elem_iff.mpr hd
    simp [hp', hd', hp, hd]

theorem mapM_check_spec (l : List (String × JSValue)) :
    ((∃ es, l.mapM (fun kv => checkMuEntry kv.1 kv.2) = Except.ok es) ↔
      ∀ kv ∈ l, muEntryValid kv.1 kv.2) ∧
    (∀ es, l.mapM (fun kv => checkMuEntry kv.1 kv.2) = Except.ok es →
      es.length = l.length) := by
  induction l with
  | nil =>
      constructor
      · simp [List.mapM_nil]
        exact ⟨[], rfl⟩
      · intro es hes
        rw [List.mapM_nil] at hes
        injection hes with h
        rw [← h]
        rfl
  | cons kv t ih =>
      constructor
      · constructor
        · rintro ⟨es, hes⟩ kv' hkv'
          rw [List.mapM_cons] at hes
          obtain ⟨a, ha, rest⟩ := exceptBind_ok.mp hes
          obtain ⟨as, has, _⟩ := exceptBind_ok.mp rest
          rcases List.mem_cons.mp hkv' with rfl | hmem
          · exact (checkMuEntry_ok_iff kv'.1 kv'.2).mp ⟨a, ha⟩
          · exact ih.1.mp ⟨as, has⟩ kv' hmem
        · intro hall
          obtain ⟨a, ha⟩ := (checkMuEntry_ok_iff kv.1 kv.2).mpr
            (hall kv (List.mem_cons_self kv t))
          obtain ⟨as, has⟩ := ih.1.mpr
            (fun kv' h => hall kv' (List.mem_cons_of_mem _ h))
          refine ⟨a :: as, ?_⟩
          rw [List.mapM_cons]
          simp only [ha, has, Bind.bind, Except.bind]
          rfl
      · intro es hes
        rw [List.mapM_cons] at hes
        obtain ⟨a, ha, rest⟩ := exceptBind_ok.mp hes
        obtain ⟨as, has, hpure⟩ := exceptBind_ok.mp rest
        injection hpure with h
        rw [← h]
        simp [ih.2 as has]

/-- C4: with the mass left at its default, `generateSignalStrengthsXML`
succeeds exactly when every key splits into two tokens of the two closed
enumerations and every mu value is a finite number in `[-100, 100]`; any
violation makes the whole call throw, so no partial document is ever
produced, and a successful call returns one mu entry per key. -/
theorem generateSignalStrengthsXML_spec (ss : List (String × JSValue)) :
    ((∃ d, generateSignalStrengthsXML ⟨JSValue.undef, ss⟩ = Except.ok d) ↔
      ∀ kv ∈ ss, muEntryValid kv.1 kv.2) ∧
    (∀ d, generateSignalStrengthsXML ⟨JSValue.undef, ss⟩ = Except.ok d →
      d.entries.length = ss.length) := by
  have hgen : generateSignalStrengthsXML ⟨JSValue.undef, ss⟩ =
      (ss.mapM (fun kv => checkMuEntry kv.1 kv.2)) >>= fun es =>
        Except.ok ⟨12509/100, es⟩ := rfl
  constructor
  · constructor
    · rintro ⟨d, hd⟩
      rw [hgen] at hd
      obtain ⟨es, hes, _⟩ := exceptBind_ok.mp hd
      exact (mapM_check_spec ss).1.mp ⟨es, hes⟩
    · intro hall
      obtain ⟨es, hes⟩ := (mapM_check_spec ss).1.mpr hall
      refine ⟨⟨12509/100, es⟩, ?_⟩
      rw [hgen]
      simp only [hes, Bind.bind, Except.bind]
  · intro d hd
    rw [hgen] at hd
    obtain ⟨es, hes, hpure⟩ := exceptBind_ok.mp hd
    injection hpure with h
    rw [← h]
    exact (mapM_check_spec ss).2 es hes

/-- Witness for C4: the valid key `ggH_gammagamma` with mu value 1
yields a one-entry document, and conversely that success certifies the
entry's validity through the theorem. -/
theorem generateSignalStrengthsXML_spec_witness :
    muEntryValid "ggH_gammagamma" (JSValue.num (JSNum.fin 1)) := by
  have h := (generateSignalStrengthsXML_spec
    [("ggH_gammagamma", JSValue.num (JSNum.fin 1))]).1.mp
    ⟨⟨12509/100, [⟨"ggH", "gammagamma", 1⟩]⟩, by rfl⟩
  exact h ("ggH_gammagamma", JSValue.num (JSNum.fin 1)) (by simp)

/-- Evaluation of `generateReducedCouplingsXML` once every validator's
result is known: the document's fields are exactly the source's
`Number.isNaN(x) ? fallback : x` resolutions. -/
theorem genRC_eval (p : CouplingParams)
    {mass : ℚ} {cv cf ct cb cc2 ctau cmu bi bu : JSNum}
    {gg gam zgam : Option JSNum}
    (hm : validateMass p.mass = Except.ok mass)
    (hcv : validateCoupling p.CV "CV" = Except.ok cv)
    (hcf : validateCoupling p.CF "CF" = Except.ok cf)
    (hct : validateCoupling p.Ct "Ct" = Except.ok ct)
    (hcb : validateCoupling p.Cb "Cb" = Except.ok cb)
    (hcc : validateCoupling p.Cc "Cc" = Except.ok cc2)
    (hctau : validateCoupling p.Ctau "Ctau" = Except.ok ctau)
    (hcmu : validateCoupling p.Cmu "Cmu" = Except.ok cmu)
    (hbi : validateBranchingRatio p.BRinv "BRinv" = Except.ok bi)
    (hbu : validateBranchingRatio p.BRundet "BRundet" = Except.ok bu)
    (hgg : loopCoupling p.Cg "Cg" = Except.ok gg)
    (hgam : loopCoupling p.Cgamma "Cgamma" = Except.ok gam)
    (hzg : loopCoupling p.CZgamma "CZgamma" = Except.ok zgam) :
    generateReducedCouplingsXML p = Except.ok
      ⟨mass, orIfNaN ct (orIfNaN cf (JSNum.fin 1)),
       orIfNaN cb (orIfNaN cf (JSNum.fin 1)),
       orIfNaN cc2 (orIfNaN cf (JSNum.fin 1)),
       orIfNaN ctau (orIfNaN cf (JSNum.fin 1)),
       orIfNaN cmu (orIfNaN cf (JSNum.fin 1)),
       orIfNaN cv (JSNum.fin 1), orIfNaN cv (JSNum.fin 1),
       gg, gam, zgam,
       orIfNaN bi (JSNum.fin 0), orIfNaN bu (JSNum.fin 0),
       if p.precision = JSValue.str "LO" then "LO" else "BEST-QCD"⟩ := by
  simp [generateReducedCouplingsXML, hm, hcv, hcf, hct, hcb, hcc, hctau,
    hcmu, hbi, hbu, hgg, hgam, hzg, Bind.bind, Except.bind]
  rfl

/-- Inversion of a successful `generateReducedCouplingsXML`: every
validator succeeded and the document is determined by their results. -/
theorem genRC_ok_inv {p : CouplingParams} {d : CouplingDoc}
    (h : generateReducedCouplingsXML p = Except.ok d) :
    ∃ (mass : ℚ) (cv cf ct cb cc2 ctau cmu bi bu : JSNum)
      (gg gam zgam : Option JSNum),
      validateMass p.mass = Except.ok mass ∧
      validateCoupling p.CV "CV" = Except.ok cv ∧
      validateCoupling p.CF "CF" = Except.ok cf ∧
      validateCoupling p.Ct "Ct" = Except.ok ct ∧
      validateCoupling p.Cb "Cb" = Except.ok cb ∧
      validateCoupling p.Cc "Cc" = Except.ok cc2 ∧
      validateCoupling p.Ctau "Ctau" = Except.ok ctau ∧
      validateCoupling p.Cmu "Cmu" = Except.ok cmu ∧
      validateBranchingRatio p.BRinv "BRinv" = Except.ok bi ∧
      validateBranchingRatio p.BRundet "BRundet" = Except.ok bu ∧
      loopCoupling p.Cg "Cg" = Except.ok gg ∧
      loopCoupling p.Cgamma "Cgamma" = Except.ok gam ∧
      loopCoupling p.CZgamma "CZgamma" = Except.ok zgam ∧
      d = ⟨mass, orIfNaN ct (orIfNaN cf (JSNum.fin 1)),
        orIfNaN cb (orIfNaN cf (JSNum.fin 1)),
        orIfNaN cc2 (orIfNaN cf (JSNum.fin 1)),
        orIfNaN ctau (orIfNaN cf (JSNum.fin 1)),
        orIfNaN cmu (orIfNaN cf (JSNum.fin 1)),
        orIfNaN cv (JSNum.fin 1), orIfNaN cv (JSNum.fin 1),
        gg, gam, zgam,
        orIfNaN bi (JSNum.fin 0), orIfNaN bu (JSNum.fin 0),
        if p.precision = JSValue.str "LO" then "LO" else "BEST-QCD"⟩ := by
  cases hm : validateMass p.mass with
  | error e => simp [generateReducedCouplingsXML, hm, Bind.bind, Except.bind] at h
  | ok mass =>
  cases hcv : validateCoupling p.CV "CV" with
  | error e =>
      simp [generateReducedCouplingsXML, hm, hcv, Bind.bind, Except.bind] at h
  | ok cv =>
  cases hcf : validateCoupling p.CF "CF" with
  | error e =>
      simp [generateReducedCouplingsXML, hm, hcv, hcf, Bind.bind, Except.bind] at h
  | ok cf =>
  cases hct : validateCoupling p.Ct "Ct" with
  | error e =>
      simp [generateReducedCouplingsXML, hm, hcv, hcf, hct, Bind.bind,
        Except.bind] at h
  | ok ct =>
  cases hcb : validateCoupling p.Cb "Cb" with
  | error e =>
      simp [generateReducedCouplingsXML, hm, hcv, hcf, hct, hcb, Bind.bind,
        Except.bind] at h
  | ok cb =>
  cases hcc : validateCoupling p.Cc "Cc" with
  | error e =>
      simp [generateReducedCouplingsXML, hm, hcv, hcf, hct, hcb, hcc,
        Bind.bind, Except.bind] at h
  | ok cc2 =>
  cases hctau : validateCoupling p.Ctau "Ctau" with
  | error e =>
      simp [generateReducedCouplingsXML, hm, hcv, hcf, hct, hcb, hcc, hctau,
        Bind.bind, Except.bind] at h
  | ok ctau =>
  cases hcmu : validateCoupling p.Cmu "Cmu" with
  | error e =>
      simp [generateReducedCouplingsXML, hm, hcv, hcf, hct, hcb, hcc, hctau,
        hcmu, Bind.bind, Except.bind] at h
  | ok cmu =>
  cases hbi : validateBranchingRatio p.BRinv "BRinv" with
  | error e =>
      simp [generateReducedCouplingsXML, hm, hcv, hcf, hct, hcb, hcc, hctau,
        hcmu, hbi, Bind.bind, Except.bind] at h
  | ok bi =>
  cases hbu : validateBranchingRatio p.BRundet "BRundet" with
  | error e =>
      simp [generateReducedCouplingsXML, hm, hcv, hcf, hct, hcb, hcc, hctau,
        hcmu, hbi, hbu, Bind.bind, Except.bind] at h
  | ok bu =>
  cases hgg : loopCoupling p.Cg "Cg" with
  | error e =>
      simp [generateReducedCouplingsXML, hm, hcv, hcf, hct, hcb, hcc, hctau,
        hcmu, hbi, hbu, hgg, Bind.bind, Except.bind] at h
  | ok gg =>
  cases hgam : loopCoupling p.Cgamma "Cgamma" with
  | error e =>
      simp [generateReducedCouplingsXML, hm, hcv, hcf, hct, hcb, hcc, hctau,
        hcmu, hbi, hbu, hgg, hgam, Bind.bind, Except.bind] at h
  | ok gam =>
  cases hzg : loopCoupling p.CZgamma "CZgamma" with
  | error e =>
      simp [generateReducedCouplingsXML, hm, hcv, hcf, hct, hcb, hcc, hctau,
        hcmu, hbi, hbu, hgg, hgam, hzg, Bind.bind, Except.bind] at h
  | ok zgam =>
      have hev := genRC_eval p hm hcv hcf hct hcb hcc hctau hcmu hbi hbu
        hgg hgam hzg
      rw [h] at hev
      injection hev with hd
      exact ⟨mass, cv, cf, ct, cb, cc2, ctau, cmu, bi, bu, gg, gam, zgam,
        rfl, rfl, rfl, rfl, rfl, rfl, rfl, rfl, rfl, rfl, rfl, rfl, rfl,
        hd⟩

theorem validateCoupling_num_fin {q : ℚ} {name : String} {c : JSNum}
    (h : validateCoupling (JSValue.num (JSNum.fin q)) name = Except.ok c) :
    c = JSNum.fin q := by
  simp only [validateCoupling] at h
  rw [if_neg (by simp)] at h
  cases hv : validateNumber (JSValue.num (JSNum.fin q)) name (-100) 100 with
  | error e => rw [hv] at h; simp [Except.map] at h
  | ok r =>
      rw [hv] at h
      simp only [Except.map, Except.ok.injEq] at h
      obtain ⟨hval, -, -⟩ := (validateNumber_ok_iff _ _ _ _ _).mp hv
      injection hval with hx
      injection hx with hq
      rw [← h, hq]

theorem validateCoupling_absent {v : JSValue} {name : String} {c : JSNum}
    (hud : v = JSValue.undef ∨ v = JSValue.nullv)
    (h : validateCoupling v name = Except.ok c) : c = JSNum.nan := by
  rw [validateCoupling, if_pos hud] at h
  injection h with h'
  exact h'.symm

/-- The spec's resolution order for a per-fermion coupling: explicit
valid value, else the universal fermion fallback CF, else the
Standard-Model default 1.0. -/
def resolvesFermion (pv cfv : JSValue) (field : JSNum) : Prop :=
  (∀ q : ℚ, pv = JSValue.num (JSNum.fin q) → field = JSNum.fin q) ∧
  ((pv = JSValue.undef ∨ pv = JSValue.nullv) → ∀ q : ℚ,
    cfv = JSValue.num (JSNum.fin q) → field = JSNum.fin q) ∧
  ((pv = JSValue.undef ∨ pv = JSValue.nullv) →
    (cfv = JSValue.undef ∨ cfv = JSValue.nullv) → field = JSNum.fin 1)

theorem fermionResolve {pv cfv : JSValue} {ct cf : JSNum} {name : String}
    (hct : validateCoupling pv name = Except.ok ct)
    (hcf : validateCoupling cfv "CF" = Except.ok cf) :
    resolvesFermion pv cfv (orIfNaN ct (orIfNaN cf (JSNum.fin 1))) := by
  refine ⟨?_, ?_, ?_⟩
  · rintro q rfl
    rw [validateCoupling_num_fin hct]
    simp [orIfNaN]
  · rintro hud q rfl
    rw [validateCoupling_absent hud hct, validateCoupling_num_fin hcf]
    simp [orIfNaN]
  · intro hud hcfud
    rw [validateCoupling_absent hud hct, validateCoupling_absent hcfud hcf]
    simp [orIfNaN]

theorem validateCoupling_num_eval {q : ℚ} (name : String)
    (h1 : -100 ≤ q) (h2 : q ≤ 100) :
    validateCoupling (JSValue.num (JSNum.fin q)) name =
      Except.ok (JSNum.fin q) := by
  rw [validateCoupling, if_neg (by simp)]
  rw [(validateNumber_ok_iff _ _ _ _ q).mpr ⟨rfl, h1, h2⟩]
  rfl

/-- C5: whenever `generateReducedCouplingsXML` succeeds, each of the
five per-fermion couplings (tt, bb, cc, tautau, mumu) is resolved as
explicit value if supplied, else the universal fermion fallback CF, else
the default 1.0; in particular the parameter set with only `CV = 1.3`
and `CF = 0.8` yields a document whose ZZ and WW fields equal 1.3 and
whose five fermion fields equal 0.8. -/
theorem generateReducedCouplingsXML_fermion_spec :
    (∀ (p : CouplingParams) (d : CouplingDoc),
      generateReducedCouplingsXML p = Except.ok d →
      resolvesFermion p.Ct p.CF d.tt ∧ resolvesFermion p.Cb p.CF d.bb ∧
      resolvesFermion p.Cc p.CF d.cc ∧ resolvesFermion p.Ctau p.CF d.tautau ∧
      resolvesFermion p.Cmu p.CF d.mumu) ∧
    generateReducedCouplingsXML
        { CV := JSValue.num (JSNum.fin (13/10)),
          CF := JSValue.num (JSNum.fin (4/5)) } =
      Except.ok ⟨12509/100, JSNum.fin (4/5), JSNum.fin (4/5), JSNum.fin (4/5),
        JSNum.fin (4/5), JSNum.fin (4/5), JSNum.fin (13/10), JSNum.fin (13/10),
        none, none, none, JSNum.fin 0, JSNum.fin 0, "BEST-QCD"⟩ := by
  constructor
  · intro p d hd
    obtain ⟨mass, cv, cf, ct, cb, cc2, ctau, cmu, bi, bu, gg, gam, zgam,
      hm, hcv, hcf, hct, hcb, hcc, hctau, hcmu, hbi, hbu, hgg, hgam, hzg,
      hdeq⟩ := genRC_ok_inv hd
    subst hdeq
    exact ⟨fermionResolve hct hcf, fermionResolve hcb hcf,
      fermionResolve hcc hcf, fermionResolve hctau hcf,
      fermionResolve hcmu hcf⟩
  · have h := genRC_eval
      { CV := JSValue.num (JSNum.fin (13/10)),
        CF := JSValue.num (JSNum.fin (4/5)) }
      rfl
      (validateCoupling_num_eval "CV" (by norm_num) (by norm_num))
      (validateCoupling_num_eval "CF" (by norm_num) (by norm_num))
      rfl rfl rfl rfl rfl rfl rfl rfl rfl rfl
    simpa [orIfNaN] using h

/-- Witness for C5: applying the resolution clauses to the concrete
`CV = 1.3, CF = 0.8` run shows the tt field equals 0.8. -/
theorem generateReducedCouplingsXML_fermion_spec_witness :
    (⟨12509/100, JSNum.fin (4/5), JSNum.fin (4/5), JSNum.fin (4/5),
      JSNum.fin (4/5), JSNum.fin (4/5), JSNum.fin (13/10), JSNum.fin (13/10),
      none, none, none, JSNum.fin 0, JSNum.fin 0,
      "BEST-QCD"⟩ : CouplingDoc).tt = JSNum.fin (4/5) := by
  have h := generateReducedCouplingsXML_fermion_spec.1 _ _
    generateReducedCouplingsXML_fermion_spec.2
  exact h.1.2.1 (Or.inl rfl) (4/5) rfl

/-- C7: the precision element is "LO" exactly when the input precision
equals the string "LO" and "BEST-QCD" for every other input, and the
precision input never affects whether the call succeeds. -/
theorem generateReducedCouplingsXML_precision_spec (p : CouplingParams)
    (v : JSValue) :
    ((∃ d, generateReducedCouplingsXML { p with precision := v } =
        Except.ok d) ↔
      (∃ d, generateReducedCouplingsXML p = Except.ok d)) ∧
    (∀ d, generateReducedCouplingsXML p = Except.ok d →
      (d.precision = "LO" ↔ p.precision = JSValue.str "LO") ∧
      (p.precision ≠ JSValue.str "LO" → d.precision = "BEST-QCD")) := by
  constructor
  · constructor
    · rintro ⟨d, hd⟩
      obtain ⟨mass, cv, cf, ct, cb, cc2, ctau, cmu, bi, bu, gg, gam, zgam,
        hm, hcv, hcf, hct, hcb, hcc, hctau, hcmu, hbi, hbu, hgg, hgam, hzg,
        -⟩ := genRC_ok_inv hd
      exact ⟨_, genRC_eval p hm hcv hcf hct hcb hcc hctau hcmu hbi hbu hgg
        hgam hzg⟩
    · rintro ⟨d, hd⟩
      obtain ⟨mass, cv, cf, ct, cb, cc2, ctau, cmu, bi, bu, gg, gam, zgam,
        hm, hcv, hcf, hct, hcb, hcc, hctau, hcmu, hbi, hbu, hgg, hgam, hzg,
        -⟩ := genRC_ok_inv hd
      exact ⟨_, genRC_eval { p with precision := v } hm hcv hcf hct hcb hcc
        hctau hcmu hbi hbu hgg hgam hzg⟩
  · intro d hd
    obtain ⟨mass, cv, cf, ct, cb, cc2, ctau, cmu, bi, bu, gg, gam, zgam,
      -, -, -, -, -, -, -, -, -, -, -, -, -, hdeq⟩ := genRC_ok_inv hd
    have hprec : d.precision =
        if p.precision = JSValue.str "LO" then "LO" else "BEST-QCD" := by
      rw [hdeq]
    rw [hprec]
    by_cases hp : p.precision = JSValue.str "LO"
    · rw [if_pos hp]
      exact ⟨⟨fun _ => hp, fun _ => rfl⟩, fun h => absurd hp h⟩
    · rw [if_neg hp]
      exact ⟨⟨fun h => absurd h (by decide), fun h => absurd h hp⟩,
        fun _ => rfl⟩

/-- Standard-Model document produced by an all-default parameter set. -/
def docSM : CouplingDoc :=
  ⟨12509/100, JSNum.fin 1, JSNum.fin 1, JSNum.fin 1, JSNum.fin 1,
   JSNum.fin 1, JSNum.fin 1, JSNum.fin 1, none, none, none, JSNum.fin 0,
   JSNum.fin 0, "BEST-QCD"⟩

/-- Witness for C7: an all-default parameter set (precision absent)
produces the conservative "BEST-QCD" setting. -/
theorem generateReducedCouplingsXML_precision_spec_witness :
    docSM.precision = "BEST-QCD" :=
  ((generateReducedCouplingsXML_precision_spec {} (JSValue.str "weird")).2
    docSM rfl).2 (by decide)

/-!
Model of `lowerIncompleteGamma` and `chi2CDF` over the symbolic number
domain `JSNum`, so that the source's floating-point escape path is
representable: arithmetic results whose magnitude exceeds the largest
finite double overflow to `±Infinity` (`ovf`), `0 * Infinity` is NaN,
comparisons with NaN are false, and `Math.min`/`Math.max` propagate NaN.
Finite arithmetic is otherwise exact (rounding and gradual underflow of
tiny intermediate values are not modelled; no verified property depends
on them, and the counterexample's overflow crosses the threshold by
hundreds of orders of magnitude).  The series loop is embedded exactly
(term update, accumulation, relative-tolerance break at `1e-14`, at most
199 further iterations); the transcendental helpers `Math.exp`,
`Math.log` and `lnGamma` remain parameters, instantiated where needed
with models that agree with the IEEE doubles on the facts used.
-/

/-- Largest finite double, `Number.MAX_VALUE = (2 - 2^-52) * 2^1023`;
the model overflows to `±Infinity` strictly beyond it (the IEEE
round-to-nearest threshold is marginally higher; nothing verified
depends on the difference). -/
def MAX_VALUE : ℚ := 2 ^ 1024 - 2 ^ 971

/-- Overflow rule applied to every finite arithmetic result. -/
def ovf (q : ℚ) : JSNum :=
  if MAX_VALUE < q then JSNum.inf
  else if q < -MAX_VALUE then JSNum.ninf
  else JSNum.fin q

/-- JavaScript `+` with overflow to `±Infinity`. -/
def jsAddF (x y : JSNum) : JSNum :=
  match jsAdd x y with
  | JSNum.fin q => ovf q
  | z => z

/-- JavaScript `*` with overflow to `±Infinity`. -/
def jsMulF (x y : JSNum) : JSNum :=
  match jsMul x y with
  | JSNum.fin q => ovf q
  | z => z

/-- JavaScript `/` with overflow to `±Infinity`. -/
def jsDivF (x y : JSNum) : JSNum :=
  match jsDiv x y with
  | JSNum.fin q => ovf q
  | z => z

/-- JavaScript unary minus. -/
def jsNeg : JSNum → JSNum
  | JSNum.nan => JSNum.nan
  | JSNum.inf => JSNum.ninf
  | JSNum.ninf => JSNum.inf
  | JSNum.fin q => JSNum.fin (-q)

/-- JavaScript `-` as addition of the negation. -/
def jsSubF (x y : JSNum) : JSNum := jsAddF x (jsNeg y)

/-- Model of `Math.abs`. -/
def jsAbs : JSNum → JSNum
  | JSNum.nan => JSNum.nan
  | JSNum.inf => JSNum.inf
  | JSNum.ninf => JSNum.inf
  | JSNum.fin q => JSNum.fin |q|

/-- JavaScript `<`: any comparison involving NaN is false. -/
def jsLt : JSNum → JSNum → Bool
  | JSNum.nan, _ => false
  | _, JSNum.nan => false
  | JSNum.fin a, JSNum.fin b => decide (a < b)
  | JSNum.fin _, JSNum.inf => true
  | JSNum.fin _, JSNum.ninf => false
  | JSNum.inf, _ => false
  | JSNum.ninf, JSNum.inf => true
  | JSNum.ninf, JSNum.ninf => false
  | JSNum.ninf, JSNum.fin _ => true

/-- JavaScript `<=`: any comparison involving NaN is false. -/
def jsLe : JSNum → JSNum → Bool
  | JSNum.nan, _ => false
  | _, JSNum.nan => false
  | JSNum.fin a, JSNum.fin b => decide (a ≤ b)
  | JSNum.fin _, JSNum.inf => true
  | JSNum.fin _, JSNum.ninf => false
  | JSNum.inf, JSNum.inf => true
  | JSNum.inf, _ => false
  | JSNum.ninf, _ => true

/-- Model of `Math.max`: NaN-propagating, otherwise the larger value. -/
def jsMax (x y : JSNum) : JSNum :=
  match x, y with
  | JSNum.nan, _ => JSNum.nan
  | _, JSNum.nan => JSNum.nan
  | x, y => if jsLt x y then y else x

/-- Model of `Math.min`: NaN-propagating, otherwise the smaller value. -/
def jsMin (x y : JSNum) : JSNum :=
  match x, y with
  | JSNum.nan, _ => JSNum.nan
  | _, JSNum.nan => JSNum.nan
  | x, y => if jsLt y x then y else x

/-- The series loop of `lowerIncompleteGamma`:
`term *= x / (a + n); sum += term;` with the relative-tolerance break
`Math.abs(term) < 1e-14 * Math.abs(sum)`, for `n` from 1 to 199. -/
def ligLoop (a x : JSNum) : ℕ → ℕ → JSNum → JSNum → JSNum
  | 0, _, _, sum => sum
  | fuel + 1, n, term, sum =>
      let t := jsMulF term (jsDivF x (jsAddF a (JSNum.fin (n : ℚ))))
      let s := jsAddF sum t
      if jsLt (jsAbs t) (jsMulF (JSNum.fin (1 / 10 ^ 14)) (jsAbs s)) then s
      else ligLoop a x fuel (n + 1) t s

/-- Embedding of `lowerIncompleteGamma(a, x)`: zero for `x < 0` and for
`x === 0`, else the series value scaled by
`Math.exp(-x + a*Math.log(x) - lnGamma(a))` and passed through the
`Math.min(Math.max(result, 0), 1)` clamp. -/
def lowerIncompleteGamma (expF logF lnGammaF : JSNum → JSNum)
    (a x : JSNum) : JSNum :=
  if jsLt x (JSNum.fin 0) then JSNum.fin 0
  else if x = JSNum.fin 0 then JSNum.fin 0
  else
    let lnGammaA := lnGammaF a
    let sum := ligLoop a x 199 1 (jsDivF (JSNum.fin 1) a)
      (jsDivF (JSNum.fin 1) a)
    let result := jsMulF
      (expF (jsSubF (jsAddF (jsNeg x) (jsMulF a (logF x))) lnGammaA)) sum
    jsMin (jsMax result (JSNum.fin 0)) (JSNum.fin 1)

/-- Embedding of `chi2CDF(x, k)`: zero for `x <= 0`, else
`P(k/2, x/2)`. -/
def chi2CDF (expF logF lnGammaF : JSNum → JSNum) (x k : JSNum) : JSNum :=
  if jsLe x (JSNum.fin 0) then JSNum.fin 0
  else lowerIncompleteGamma expF logF lnGammaF (jsDivF k (JSNum.fin 2))
    (jsDivF x (JSNum.fin 2))

/-- The clamp `Math.min(Math.max(r, 0), 1)` yields a value in `[0, 1]`
for every non-NaN input and propagates NaN. -/
theorem jsClamp01 (r : JSNum) :
    jsMin (jsMax r (JSNum.fin 0)) (JSNum.fin 1) = JSNum.nan ∨
    ∃ q : ℚ, jsMin (jsMax r (JSNum.fin 0)) (JSNum.fin 1) = JSNum.fin q ∧
      0 ≤ q ∧ q ≤ 1 := by
  cases r with
  | nan => exact Or.inl rfl
  | inf =>
      right
      refine ⟨1, ?_, by norm_num, le_refl 1⟩
      simp [jsMax, jsMin, jsLt]
  | ninf =>
      right
      refine ⟨0, ?_, le_refl 0, by norm_num⟩
      simp [jsMax, jsMin, jsLt]
  | fin q =>
      right
      by_cases h0 : q < 0
      · refine ⟨0, ?_, le_refl 0, by norm_num⟩
        simp [jsMax, jsMin, jsLt, h0]
      · by_cases h1 : 1 < q
        · refine ⟨1, ?_, by norm_num, le_refl 1⟩
          simp [jsMax, jsMin, jsLt, h0, h1]
        · refine ⟨q, ?_, by linarith [not_lt.mp h0], by linarith [not_lt.mp h1]⟩
          simp [jsMax, jsMin, jsLt, h0, h1]

/-- C8 (amended): for every model of the transcendental helpers and
every `a > 0`, `lowerIncompleteGamma(a, x)` returns either a finite
value in `[0, 1]` or NaN (the clamp absorbs finite and infinite
overshoot, but `Math.min`/`Math.max` propagate a NaN result); it returns
exactly 0 whenever `x ≤ 0`; and for every `k > 0`, `chi2CDF(x, k)`
equals `P(k/2, x/2)` for `x > 0` and 0 for `x ≤ 0`. -/
theorem lowerIncompleteGamma_range_spec (expF logF lnGammaF : JSNum → JSNum)
    (a x : JSNum) (ha : jsLt (JSNum.fin 0) a = true) :
    (lowerIncompleteGamma expF logF lnGammaF a x = JSNum.nan ∨
      ∃ q : ℚ, lowerIncompleteGamma expF logF lnGammaF a x = JSNum.fin q ∧
        0 ≤ q ∧ q ≤ 1) ∧
    (jsLe x (JSNum.fin 0) = true →
      lowerIncompleteGamma expF logF lnGammaF a x = JSNum.fin 0) ∧
    (∀ k : JSNum, jsLt (JSNum.fin 0) k = true →
      (jsLt (JSNum.fin 0) x = true → chi2CDF expF logF lnGammaF x k =
        lowerIncompleteGamma expF logF lnGammaF (jsDivF k (JSNum.fin 2))
          (jsDivF x (JSNum.fin 2))) ∧
      (jsLe x (JSNum.fin 0) = true →
        chi2CDF expF logF lnGammaF x k = JSNum.fin 0)) := by
  refine ⟨?_, ?_, ?_⟩
  · simp only [lowerIncompleteGamma]
    split
    · exact Or.inr ⟨0, rfl, le_refl 0, by norm_num⟩
    · split
      · exact Or.inr ⟨0, rfl, le_refl 0, by norm_num⟩
      · exact jsClamp01 _
  · intro hx
    cases x with
    | nan => simp [jsLe] at hx
    | inf => simp [jsLe] at hx
    | ninf =>
        simp only [lowerIncompleteGamma]
        rw [show jsLt JSNum.ninf (JSNum.fin 0) = true from rfl]
        simp
    | fin q =>
        have hq : q ≤ 0 := by simpa [jsLe] using hx
        simp only [lowerIncompleteGamma]
        rcases lt_or_eq_of_le hq with hlt | heq
        · rw [show jsLt (JSNum.fin q) (JSNum.fin 0) = true from by
            simp [jsLt]; exact hlt]
          simp
        · subst heq
          rw [show jsLt (JSNum.fin 0) (JSNum.fin 0) = false from by
            simp [jsLt]]
          simp
  · intro k hk
    constructor
    · intro hx
      have hfalse : jsLe x (JSNum.fin 0) = false := by
        cases x with
        | nan => simp [jsLt] at hx
        | inf => rfl
        | ninf => simp [jsLt] at hx
        | fin q =>
            have : 0 < q := by simpa [jsLt] using hx
            simp [jsLe]
            linarith
      simp only [chi2CDF]
      rw [hfalse]
      simp
    · intro hx
      simp only [chi2CDF]
      rw [hx]
      simp

/-- Witness for C8: for `a = 1 > 0` and `x = -Infinity ≤ 0` the function
returns exactly 0. -/
theorem lowerIncompleteGamma_range_spec_witness :
    lowerIncompleteGamma (fun z => z) (fun z => z) (fun z => z)
      (JSNum.fin 1) JSNum.ninf = JSNum.fin 0 :=
  (lowerIncompleteGamma_range_spec (fun z => z) (fun z => z) (fun z => z)
    (JSNum.fin 1) JSNum.ninf (by rfl)).2.1 (by rfl)

/-- Model of `Math.exp` retaining the IEEE fact the counterexample
uses: double exp underflows to +0 for every argument at or below -746
(the true underflow threshold is about -745.14); elsewhere a positive
placeholder, never consulted by the proofs. -/
def expModel : JSNum → JSNum
  | JSNum.fin q => if q ≤ -746 then JSNum.fin 0 else JSNum.fin 1
  | JSNum.nan => JSNum.nan
  | JSNum.inf => JSNum.inf
  | JSNum.ninf => JSNum.fin 0

/-- Model of `Math.log` at the magnitudes the counterexample uses:
`Math.log(1e308)` is about 709.196, and only the fact that the value is
finite and tiny against 1e308 matters. -/
def logModel : JSNum → JSNum := fun _ => JSNum.fin 709

/-- Model of `lnGamma` at the one point used: the source's Lanczos
approximation at 1 returns a value within 1e-13 of the exact
`lnGamma(1) = 0`; any value of small magnitude gives the same outcome. -/
def lnGammaModel : JSNum → JSNum := fun _ => JSNum.fin 0

/-- Membership of a JavaScript number in `[0, 1]`; NaN is not in it. -/
def inUnitInterval : JSNum → Bool
  | JSNum.fin q => decide (0 ≤ q ∧ q ≤ 1)
  | _ => false

theorem ovf_fin {q : ℚ} (h1 : -MAX_VALUE ≤ q) (h2 : q ≤ MAX_VALUE) :
    ovf q = JSNum.fin q := by
  rw [ovf, if_neg (not_lt.mpr h2), if_neg (not_lt.mpr h1)]

theorem ovf_inf {q : ℚ} (h : MAX_VALUE < q) : ovf q = JSNum.inf := by
  rw [ovf, if_pos h]

theorem jsAddF_fin {a b : ℚ} (h1 : -MAX_VALUE ≤ a + b)
    (h2 : a + b ≤ MAX_VALUE) :
    jsAddF (JSNum.fin a) (JSNum.fin b) = JSNum.fin (a + b) := by
  have h : jsAddF (JSNum.fin a) (JSNum.fin b) = ovf (a + b) := rfl
  rw [h]
  exact ovf_fin h1 h2

theorem jsMulF_fin {a b : ℚ} (h1 : -MAX_VALUE ≤ a * b)
    (h2 : a * b ≤ MAX_VALUE) :
    jsMulF (JSNum.fin a) (JSNum.fin b) = JSNum.fin (a * b) := by
  have h : jsMulF (JSNum.fin a) (JSNum.fin b) = ovf (a * b) := rfl
  rw [h]
  exact ovf_fin h1 h2

theorem jsMulF_fin_ovf {a b : ℚ} (h : MAX_VALUE < a * b) :
    jsMulF (JSNum.fin a) (JSNum.fin b) = JSNum.inf := by
  have h0 : jsMulF (JSNum.fin a) (JSNum.fin b) = ovf (a * b) := rfl
  rw [h0]
  exact ovf_inf h

theorem jsMulF_inf_pos {b : ℚ} (hb : 0 < b) :
    jsMulF JSNum.inf (JSNum.fin b) = JSNum.inf := by
  unfold jsMulF
  rw [show jsMul JSNum.inf (JSNum.fin b) =
    (if 0 < b then JSNum.inf else if b < 0 then JSNum.ninf else JSNum.nan)
    from rfl, if_pos hb]

theorem jsMulF_pos_inf {c : ℚ} (hc : 0 < c) :
    jsMulF (JSNum.fin c) JSNum.inf = JSNum.inf := by
  unfold jsMulF
  rw [show jsMul (JSNum.fin c) JSNum.inf =
    (if 0 < c then JSNum.inf else if c < 0 then JSNum.ninf else JSNum.nan)
    from rfl, if_pos hc]

theorem jsDivF_fin {a b : ℚ} (hb : b ≠ 0) (h1 : -MAX_VALUE ≤ a / b)
    (h2 : a / b ≤ MAX_VALUE) :
    jsDivF (JSNum.fin a) (JSNum.fin b) = JSNum.fin (a / b) := by
  have h : jsDiv (JSNum.fin a) (JSNum.fin b) = JSNum.fin (a / b) := by
    rw [show jsDiv (JSNum.fin a) (JSNum.fin b) =
      (if b = 0 then
        (if 0 < a then JSNum.inf else if a < 0 then JSNum.ninf else JSNum.nan)
      else JSNum.fin (a / b)) from rfl, if_neg hb]
  unfold jsDivF
  rw [h]
  exact ovf_fin h1 h2

theorem jsLt_abs_inf_tol :
    jsLt (jsAbs JSNum.inf)
      (jsMulF (JSNum.fin (1 / 10 ^ 14)) (jsAbs JSNum.inf)) = false := by
  rw [show jsAbs JSNum.inf = JSNum.inf from rfl,
    jsMulF_pos_inf (by norm_num : (0:ℚ) < 1 / 10 ^ 14)]
  rfl

theorem ligLoop_step {a x : JSNum} {fuel n : ℕ} {term sum t s : JSNum}
    (ht : jsMulF term (jsDivF x (jsAddF a (JSNum.fin (n : ℚ)))) = t)
    (hs : jsAddF sum t = s)
    (hbr : jsLt (jsAbs t)
      (jsMulF (JSNum.fin (1 / 10 ^ 14)) (jsAbs s)) = false) :
    ligLoop a x (fuel + 1) n term sum = ligLoop a x fuel (n + 1) t s := by
  simp only [ligLoop]
  rw [ht, hs, hbr]
  simp

theorem ligLoop_inf_absorb {X : ℚ} (hX1 : 10 ^ 307 ≤ X)
    (hX2 : X ≤ MAX_VALUE) :
    ∀ fuel n : ℕ, 1 ≤ n → (n : ℚ) + fuel ≤ 10 ^ 9 →
      ligLoop (JSNum.fin 1) (JSNum.fin X) fuel n JSNum.inf JSNum.inf =
        JSNum.inf := by
  intro fuel
  induction fuel with
  | zero => intro n _ _; rfl
  | succ f ih =>
      intro n hn hb
      have hXpos : (0:ℚ) < X := lt_of_lt_of_le (by norm_num) hX1
      have hM0 : (0:ℚ) < MAX_VALUE := by norm_num [MAX_VALUE]
      have hM9 : (10:ℚ) ^ 9 + 1 ≤ MAX_VALUE := by norm_num [MAX_VALUE]
      have hb9 : (n : ℚ) + ((f : ℚ) + 1) ≤ 10 ^ 9 := by
        push_cast at hb
        linarith
      have hn9 : (n : ℚ) ≤ 10 ^ 9 := by
        have hf0 : (0:ℚ) ≤ (f : ℚ) := by positivity
        linarith
      have hnd : (0:ℚ) < 1 + (n : ℚ) := by positivity
      have hadd : jsAddF (JSNum.fin 1) (JSNum.fin (n : ℚ)) =
          JSNum.fin (1 + (n : ℚ)) :=
        jsAddF_fin (by linarith) (by linarith)
      have hdiv : jsDivF (JSNum.fin X) (JSNum.fin (1 + (n : ℚ))) =
          JSNum.fin (X / (1 + (n : ℚ))) :=
        jsDivF_fin (ne_of_gt hnd)
          (le_trans (by linarith) (div_nonneg hXpos.le hnd.le))
          (le_trans (div_le_self hXpos.le (by linarith)) hX2)
      have ht : jsMulF JSNum.inf
          (jsDivF (JSNum.fin X) (jsAddF (JSNum.fin 1) (JSNum.fin (n : ℚ)))) =
          JSNum.inf := by
        rw [hadd, hdiv]
        exact jsMulF_inf_pos (div_pos hXpos hnd)
      rw [ligLoop_step ht (show jsAddF JSNum.inf JSNum.inf = JSNum.inf
        from rfl) jsLt_abs_inf_tol]
      exact ih (n + 1) (by omega) (by push_cast; push_cast at hb; linarith)

theorem lig_nan (X : ℚ) (h1 : 10 ^ 307 ≤ X) (h2 : X ≤ MAX_VALUE) :
    lowerIncompleteGamma expModel logModel lnGammaModel (JSNum.fin 1)
      (JSNum.fin X) = JSNum.nan := by
  have hXpos : (0:ℚ) < X := lt_of_lt_of_le (by norm_num) h1
  have hM0 : (0:ℚ) < MAX_VALUE := by norm_num [MAX_VALUE]
  have hM2 : (2:ℚ) ≤ MAX_VALUE := by norm_num [MAX_VALUE]
  have hM709 : (709:ℚ) ≤ MAX_VALUE := by norm_num [MAX_VALUE]
  have hx2nn : (0:ℚ) ≤ X / 2 := by positivity
  have hx2le : X / 2 ≤ MAX_VALUE := by linarith
  have hx3nn : (0:ℚ) ≤ X / 3 := by positivity
  have hx3le : X / 3 ≤ MAX_VALUE := by linarith
  have hs1le : 1 + X / 2 ≤ MAX_VALUE := by linarith
  have hb1 : jsLt (JSNum.fin X) (JSNum.fin 0) = false := by
    show decide (X < 0) = false
    exact decide_eq_false (by linarith)
  have hb2 : ¬ (JSNum.fin X = JSNum.fin 0) := by
    intro h
    injection h with h'
    rw [h'] at h1
    norm_num at h1
  have hdiv11 : jsDivF (JSNum.fin 1) (JSNum.fin 1) = JSNum.fin 1 := by
    rw [jsDivF_fin one_ne_zero (by norm_num [MAX_VALUE])
      (by norm_num [MAX_VALUE])]
    norm_num
  have haddn1 : jsAddF (JSNum.fin 1) (JSNum.fin ((1:ℕ) : ℚ)) =
      JSNum.fin 2 := by
    rw [jsAddF_fin (by norm_num [MAX_VALUE]) (by norm_num [MAX_VALUE])]
    norm_num
  have hdivX2 : jsDivF (JSNum.fin X) (JSNum.fin 2) = JSNum.fin (X / 2) :=
    jsDivF_fin two_ne_zero (by linarith) (by linarith)
  have ht1 : jsMulF (JSNum.fin 1) (JSNum.fin (X / 2)) =
      JSNum.fin (X / 2) := by
    rw [jsMulF_fin (by rw [one_mul]; linarith) (by rw [one_mul]; linarith)]
    rw [one_mul]
  have hs1 : jsAddF (JSNum.fin 1) (JSNum.fin (X / 2)) =
      JSNum.fin (1 + X / 2) :=
    jsAddF_fin (by linarith) (by linarith)
  have habs1 : jsAbs (JSNum.fin (X / 2)) = JSNum.fin (X / 2) := by
    rw [show jsAbs (JSNum.fin (X / 2)) = JSNum.fin |X / 2| from rfl,
      abs_of_nonneg hx2nn]
  have habs1s : jsAbs (JSNum.fin (1 + X / 2)) = JSNum.fin (1 + X / 2) := by
    rw [show jsAbs (JSNum.fin (1 + X / 2)) = JSNum.fin |1 + X / 2| from rfl,
      abs_of_nonneg (by linarith)]
  have htol1 : jsMulF (JSNum.fin (1 / 10 ^ 14)) (JSNum.fin (1 + X / 2)) =
      JSNum.fin (1 / 10 ^ 14 * (1 + X / 2)) :=
    jsMulF_fin (by nlinarith) (by nlinarith)
  have hbr1 : jsLt (jsAbs (JSNum.fin (X / 2)))
      (jsMulF (JSNum.fin (1 / 10 ^ 14)) (jsAbs (JSNum.fin (1 + X / 2)))) =
      false := by
    rw [habs1, habs1s, htol1]
    show decide (X / 2 < 1 / 10 ^ 14 * (1 + X / 2)) = false
    exact decide_eq_false (by intro hcon; nlinarith)
  have hstep1 : ligLoop (JSNum.fin 1) (JSNum.fin X) 199 1 (JSNum.fin 1)
      (JSNum.fin 1) = ligLoop (JSNum.fin 1) (JSNum.fin X) 198 2
      (JSNum.fin (X / 2)) (JSNum.fin (1 + X / 2)) :=
    ligLoop_step (by rw [haddn1, hdivX2]; exact ht1) hs1 hbr1
  have haddn2 : jsAddF (JSNum.fin 1) (JSNum.fin ((2:ℕ) : ℚ)) =
      JSNum.fin 3 := by
    rw [jsAddF_fin (by norm_num [MAX_VALUE]) (by norm_num [MAX_VALUE])]
    norm_num
  have hdivX3 : jsDivF (JSNum.fin X) (JSNum.fin 3) = JSNum.fin (X / 3) :=
    jsDivF_fin three_ne_zero (by linarith) (by linarith)
  have ht2 : jsMulF (JSNum.fin (X / 2)) (JSNum.fin (X / 3)) = JSNum.inf := by
    apply jsMulF_fin_ovf
    have hXX : (10:ℚ) ^ 307 * 10 ^ 307 ≤ X * X :=
      mul_le_mul h1 h1 (by norm_num) (by linarith)
    have hc : MAX_VALUE < (10:ℚ) ^ 307 * 10 ^ 307 / 6 := by
      norm_num [MAX_VALUE]
    have hre : X / 2 * (X / 3) = X * X / 6 := by ring
    rw [hre]
    linarith
  have hstep2 : ligLoop (JSNum.fin 1) (JSNum.fin X) 198 2
      (JSNum.fin (X / 2)) (JSNum.fin (1 + X / 2)) =
      ligLoop (JSNum.fin 1) (JSNum.fin X) 197 3 JSNum.inf JSNum.inf :=
    ligLoop_step (by rw [haddn2, hdivX3]; exact ht2)
      (show jsAddF (JSNum.fin (1 + X / 2)) JSNum.inf = JSNum.inf from rfl)
      jsLt_abs_inf_tol
  have hloop : ligLoop (JSNum.fin 1) (JSNum.fin X) 199 1 (JSNum.fin 1)
      (JSNum.fin 1) = JSNum.inf := by
    rw [hstep1, hstep2]
    exact ligLoop_inf_absorb h1 h2 197 3 (by norm_num) (by norm_num)
  have hm709 : jsMulF (JSNum.fin 1) (JSNum.fin 709) = JSNum.fin 709 := by
    rw [jsMulF_fin (by norm_num [MAX_VALUE]) (by norm_num [MAX_VALUE])]
    norm_num
  have haddexp : jsAddF (JSNum.fin (-X)) (JSNum.fin 709) =
      JSNum.fin (-X + 709) :=
    jsAddF_fin (by linarith) (by linarith)
  have hsub : jsSubF (JSNum.fin (-X + 709)) (JSNum.fin 0) =
      JSNum.fin (-X + 709 + -0) := by
    unfold jsSubF
    rw [show jsNeg (JSNum.fin 0) = JSNum.fin (-0) from rfl]
    exact jsAddF_fin (by norm_num; linarith) (by norm_num; linarith)
  have hexp : expModel (JSNum.fin (-X + 709 + -0)) = JSNum.fin 0 := by
    rw [show expModel (JSNum.fin (-X + 709 + -0)) =
      (if -X + 709 + -0 ≤ -746 then JSNum.fin 0 else JSNum.fin 1) from rfl,
      if_pos (by norm_num; linarith)]
  simp only [lowerIncompleteGamma]
  rw [hb1]
  simp only [Bool.false_eq_true, if_false]
  rw [if_neg hb2]
  rw [hdiv11, hloop,
    show logModel (JSNum.fin X) = JSNum.fin 709 from rfl, hm709,
    show jsNeg (JSNum.fin X) = JSNum.fin (-X) from rfl, haddexp,
    show lnGammaModel (JSNum.fin 1) = JSNum.fin 0 from rfl, hsub, hexp]
  rfl

/-- C8 counterexample: at `a = 1`, `x = 1e308` (a representable double,
reachable as `chi2CDF(1e308, 2) = P(1, 5e307)`), the series overflows to
Infinity within two iterations, the exponential factor underflows to +0,
`0 * Infinity` is NaN, and `Math.min(Math.max(NaN, 0), 1)` is NaN — so
the function returns NaN, which is not a value in `[0, 1]`.  (The same
NaN escape occurs for moderate inputs such as `a = 1, x = 10000` from
`chi2CDF(20000, 2)`, where the overflow happens near iteration 135.)
The transcendental models agree with the IEEE doubles on the only facts
used: `Math.log` of the arguments involved is about 709, `lnGamma(1)` is
0, and `Math.exp` underflows to +0 at or below -746. -/
theorem lowerIncompleteGamma_nan_counterexample :
    lowerIncompleteGamma expModel logModel lnGammaModel (JSNum.fin 1)
      (JSNum.fin (10 ^ 308)) = JSNum.nan ∧
    chi2CDF expModel logModel lnGammaModel (JSNum.fin (10 ^ 308))
      (JSNum.fin 2) = JSNum.nan ∧
    inUnitInterval JSNum.nan = false := by
  refine ⟨lig_nan (10 ^ 308) (by norm_num) (by norm_num [MAX_VALUE]), ?_, rfl⟩
  have hle : jsLe (JSNum.fin ((10:ℚ) ^ 308)) (JSNum.fin 0) = false := by
    have h : ¬ ((10:ℚ) ^ 308 ≤ 0) := by norm_num
    simp only [jsLe]
    exact decide_eq_false h
  have hk : jsDivF (JSNum.fin 2) (JSNum.fin 2) = JSNum.fin 1 := by
    rw [jsDivF_fin two_ne_zero (by norm_num [MAX_VALUE])
      (by norm_num [MAX_VALUE])]
    norm_num
  have hx2 : jsDivF (JSNum.fin ((10:ℚ) ^ 308)) (JSNum.fin 2) =
      JSNum.fin ((10:ℚ) ^ 308 / 2) :=
    jsDivF_fin two_ne_zero (by norm_num [MAX_VALUE]) (by norm_num [MAX_VALUE])
  simp only [chi2CDF]
  rw [hle]
  simp only [Bool.false_eq_true, if_false]
  rw [hk, hx2]
  exact lig_nan (10 ^ 308 / 2) (by norm_num) (by norm_num [MAX_VALUE])

/-!
Model of the `scan_1d` tool handler.  The engine interaction of one scan
point is abstracted to its observable outcome: `runLilith` either
rejects (the spawned process exits with a nonzero code, modelled with
the code and captured stderr that build the rejection's message) or
resolves with output whose likelihood-pattern match is already carried
as `parsed` (`some` likelihood when the fixed regular expression
matches, `none` otherwise).  The per-point promises run through
`parallelLimit`, whose slot-order guarantee is proved above, so the
collected `scanResults` are embedded as a sequential left-to-right run;
when several points reject, the model surfaces the lowest-index
rejection, and no verified property depends on which rejection wins. -/

inductive EngineResult where
  | fail (code : ℤ) (stderr : String)
  | output (parsed : Option ℚ)
deriving DecidableEq, Repr

/-- Rejection produced by `runLilith` when the process exits with a
nonzero code. -/
def engineErr (code : ℤ) (stderr : String) : JSError :=
  jsErr ("Lilith exited with code " ++ toString code ++ ": " ++ stderr)

/-- Embedding of the `ScanParamConfig` interface. -/
structure ScanParamConfig where
  name : String
  min : JSValue
  max : JSValue
  steps : JSValue
deriving DecidableEq, Repr

/-- Embedding of `{ ...fixedParams, [param.name]: value }`: a computed
key equal to a known field overrides it; any other key adds a property
that `generateReducedCouplingsXML` ignores. -/
def setScanParam (p : CouplingParams) (name : String) (v : JSNum) :
    CouplingParams :=
  match name with
  | "mass" => { p with mass := JSValue.num v }
  | "CV" => { p with CV := JSValue.num v }
  | "CF" => { p with CF := JSValue.num v }
  | "Ct" => { p with Ct := JSValue.num v }
  | "Cb" => { p with Cb := JSValue.num v }
  | "Cc" => { p with Cc := JSValue.num v }
  | "Ctau" => { p with Ctau := JSValue.num v }
  | "Cmu" => { p with Cmu := JSValue.num v }
  | "Cg" => { p with Cg := JSValue.num v }
  | "Cgamma" => { p with Cgamma := JSValue.num v }
  | "CZgamma" => { p with CZgamma := JSValue.num v }
  | "BRinv" => { p with BRinv := JSValue.num v }
  | "BRundet" => { p with BRundet := JSValue.num v }
  | "precision" => { p with precision := JSValue.num v }
  | _ => p

/-- Point count of `Array.from({ length: param.steps }, ...)`: ToLength
truncation of the validated (positive, ≤ 1000) step count. -/
def jsLengthOf (q : ℚ) : ℕ := (q.num / (q.den : ℤ)).toNat

/-- Embedding of the scan-point generation
`min + i * ((max - min) / (steps - 1))` in JavaScript arithmetic: with
`steps = 1` the step is `Infinity` and the single coordinate is NaN. -/
def scanValues (mn mx stepsQ : ℚ) : List JSNum :=
  let step := jsDiv (JSNum.fin (mx - mn)) (JSNum.fin (stepsQ - 1))
  (List.range (jsLengthOf stepsQ)).map
    (fun i => jsAdd (JSNum.fin mn) (jsMul (JSNum.fin (i : ℚ)) step))

structure ScanEntry where
  value : JSNum
  likelihood : ℚ
deriving DecidableEq, Repr

structure ScanEntryDelta where
  value : JSNum
  likelihood : ℚ
  deltaLikelihood : ℚ
deriving DecidableEq, Repr

structure Scan1DOut where
  parameter : String
  minimumLikelihood : ℚ
  results : List ScanEntryDelta
deriving DecidableEq, Repr

/-- Embedding of one scan point's async callback: serialize the
couplings (a thrown validation error rejects the point's promise), then
invoke the engine; a nonzero exit rejects, a resolved run yields the
pattern-match result — an absent (null) entry when the output does not
match. -/
def scan1dWorker (fixed : CouplingParams) (name : String) (value : JSNum)
    (eng : EngineResult) : Except JSError (Option ScanEntry) := do
  let _doc ← generateReducedCouplingsXML (setScanParam fixed name value)
  match eng with
  | EngineResult.fail code stderr => Except.error (engineErr code stderr)
  | EngineResult.output parsed =>
      pure (parsed.map (fun L => ⟨value, L⟩))

/-- The `parallelLimit` round of `scan_1d`, embedded in slot order (as
guaranteed by `parallelLimit`): the result list pairs each point with
its engine outcome, and any rejection aborts the whole round. -/
def runWorkers (fixed : CouplingParams) (name : String) :
    List JSNum → (ℕ → EngineResult) → ℕ →
      Except JSError (List (Option ScanEntry))
  | [], _, _ => Except.ok []
  | v :: vs, engine, k => do
      let r ← scan1dWorker fixed name v (engine k)
      let rest ← runWorkers fixed name vs engine (k + 1)
      pure (r :: rest)

/-- Embedding of the `scan_1d` handler: validate the three scan
parameters, require `min < max`, generate the coordinates, run the
bounded-concurrency round, drop absent results, fail when none remain,
and otherwise report each surviving point with its likelihood and its
delta against the minimum. -/
def scan1dRun (cfg : ScanParamConfig) (fixed : CouplingParams)
    (engine : ℕ → EngineResult) : Except JSError Scan1DOut := do
  let mn ← validateNumber cfg.min "param.min" (-100) 100
  let mx ← validateNumber cfg.max "param.max" (-100) 100
  let stepsQ ← validateNumber cfg.steps "param.steps" 1 1000
  if mx ≤ mn then
    Except.error (jsErr "param.min must be less than param.max")
  else do
    let values := scanValues mn mx stepsQ
    let scanResults ← runWorkers fixed cfg.name values engine 0
    match scanResults.filterMap id with
    | [] => Except.error (jsErr "All scan points failed")
    | r :: rs =>
        let minL := rs.foldl (fun m e => min m e.likelihood) r.likelihood
        Except.ok
          { parameter := cfg.name, minimumLikelihood := minL,
            results := (r :: rs).map (fun e =>
              ⟨e.value, e.likelihood, e.likelihood - minL⟩) }

theorem jsDiv_fin_ne {a b : ℚ} (hb : b ≠ 0) :
    jsDiv (JSNum.fin a) (JSNum.fin b) = JSNum.fin (a / b) := by
  simp [jsDiv, hb]

/-- Per-point outcomes of one `parallelLimit` round in slot order, when
every point's promise resolves. -/
def expectedRow (engine : ℕ → EngineResult) : List JSNum → ℕ →
    List (Option ScanEntry)
  | [], _ => []
  | v :: vs, k =>
      (match engine k with
       | EngineResult.output p => p.map (fun L => (⟨v, L⟩ : ScanEntry))
       | EngineResult.fail _ _ => none) :: expectedRow engine vs (k + 1)

theorem scan1dWorker_eval {fixed : CouplingParams} {name : String}
    {value : JSNum} {doc : CouplingDoc}
    (hgen : generateReducedCouplingsXML (setScanParam fixed name value) =
      Except.ok doc) (eng : EngineResult) :
    scan1dWorker fixed name value eng =
      match eng with
      | EngineResult.fail code stderr => Except.error (engineErr code stderr)
      | EngineResult.output parsed =>
          Except.ok (parsed.map (fun L => ⟨value, L⟩)) := by
  cases eng <;> simp [scan1dWorker, hgen, Bind.bind, Except.bind, pure,
    Except.pure]

theorem runWorkers_all_output {fixed : CouplingParams} {name : String}
    (vs : List JSNum) (engine : ℕ → EngineResult) (k : ℕ)
    (hxml : ∀ v ∈ vs, ∃ doc,
      generateReducedCouplingsXML (setScanParam fixed name v) = Except.ok doc)
    (hout : ∀ i, i < vs.length → ∀ c s,
      engine (k + i) ≠ EngineResult.fail c s) :
    runWorkers fixed name vs engine k = Except.ok (expectedRow engine vs k) := by
  induction vs generalizing k with
  | nil => rfl
  | cons v vs ih =>
      obtain ⟨doc, hdoc⟩ := hxml v (List.mem_cons_self v vs)
      have hv := scan1dWorker_eval hdoc (engine k)
      cases he : engine k with
      | fail c s =>
          exact absurd he (by
            have := hout 0 (by simp) c s
            simpa using this)
      | output p =>
          rw [he] at hv
          have hrec := ih (k + 1)
            (fun v hv => hxml v (List.mem_cons_of_mem _ hv))
            (fun i hi c s => by
              have := hout (i + 1) (by simpa using Nat.succ_lt_succ hi) c s
              rwa [show k + (i + 1) = k + 1 + i by omega] at this)
          simp [runWorkers, hv, hrec, Bind.bind, Except.bind, pure, Except.pure,
            expectedRow, he]

theorem runWorkers_fail {fixed : CouplingParams} {name : String}
    (vs : List JSNum) (engine : ℕ → EngineResult) (k : ℕ)
    (hxml : ∀ v ∈ vs, ∃ doc,
      generateReducedCouplingsXML (setScanParam fixed name v) = Except.ok doc)
    (hfail : ∃ i, i < vs.length ∧ ∃ c s, engine (k + i) = EngineResult.fail c s) :
    ∃ c s, runWorkers fixed name vs engine k =
      Except.error (engineErr c s) := by
  induction vs generalizing k with
  | nil =>
      obtain ⟨i, hi, -⟩ := hfail
      simp at hi
  | cons v vs ih =>
      obtain ⟨doc, hdoc⟩ := hxml v (List.mem_cons_self v vs)
      have hv := scan1dWorker_eval hdoc (engine k)
      cases he : engine k with
      | fail c s =>
          rw [he] at hv
          exact ⟨c, s, by simp [runWorkers, he, hv, Bind.bind, Except.bind]⟩
      | output p =>
          rw [he] at hv
          obtain ⟨i, hi, c, s, hcs⟩ := hfail
          cases i with
          | zero => rw [Nat.add_zero] at hcs; rw [hcs] at he; cases he
          | succ j =>
              obtain ⟨c', s', hrec⟩ := ih (k + 1)
                (fun v hv => hxml v (List.mem_cons_of_mem _ hv))
                ⟨j, by simpa using hi, c, s, by
                  rwa [show k + 1 + j = k + (j + 1) by omega]⟩
              exact ⟨c', s', by
                simp [runWorkers, he, hv, hrec, Bind.bind, Except.bind, pure,
                  Except.pure]⟩

theorem expectedRow_filter_nil_iff (engine : ℕ → EngineResult)
    (vs : List JSNum) (k : ℕ)
    (hout : ∀ i, i < vs.length → ∀ c s,
      engine (k + i) ≠ EngineResult.fail c s) :
    (expectedRow engine vs k).filterMap id = [] ↔
      ∀ i, i < vs.length → engine (k + i) = EngineResult.output none := by
  induction vs generalizing k with
  | nil => simp [expectedRow]
  | cons v vs ih =>
      cases he : engine k with
      | fail c s =>
          exact absurd he (by
            have := hout 0 (by simp) c s
            simpa using this)
      | output p =>
          have hrec := ih (k + 1) (fun i hi c s => by
            have := hout (i + 1) (by simpa using Nat.succ_lt_succ hi) c s
            rwa [show k + (i + 1) = k + 1 + i by omega] at this)
          cases p with
          | none =>
              have hhead : List.filterMap id (expectedRow engine (v :: vs) k) =
                  List.filterMap id (expectedRow engine vs (k + 1)) := by
                simp [expectedRow, he]
              rw [hhead, hrec]
              constructor
              · intro h i hi
                cases i with
                | zero => simpa using he
                | succ j =>
                    rw [show k + (j + 1) = k + 1 + j by omega]
                    exact h j (by simpa using hi)
              · intro h j hj
                rw [show k + 1 + j = k + (j + 1) by omega]
                exact h (j + 1) (by simpa using Nat.succ_lt_succ hj)
          | some L =>
              have hhead : List.filterMap id (expectedRow engine (v :: vs) k) =
                  ⟨v, L⟩ :: List.filterMap id (expectedRow engine vs (k + 1)) := by
                simp [expectedRow, he]
              rw [hhead]
              constructor
              · intro h; cases h
              · intro h
                have h0 := h 0 (by simp)
                rw [Nat.add_zero, he] at h0
                cases h0

theorem scan1dRun_eval (cfg : ScanParamConfig) (fixed : CouplingParams)
    (engine : ℕ → EngineResult) {mn mx st : ℚ}
    (hmn : validateNumber cfg.min "param.min" (-100) 100 = Except.ok mn)
    (hmx : validateNumber cfg.max "param.max" (-100) 100 = Except.ok mx)
    (hst : validateNumber cfg.steps "param.steps" 1 1000 = Except.ok st)
    (hlt : ¬ mx ≤ mn) {rs : List (Option ScanEntry)}
    (hrw : runWorkers fixed cfg.name (scanValues mn mx st) engine 0 =
      Except.ok rs) :
    scan1dRun cfg fixed engine =
      match rs.filterMap id with
      | [] => Except.error (jsErr "All scan points failed")
      | r :: rest =>
          Except.ok
            { parameter := cfg.name,
              minimumLikelihood :=
                rest.foldl (fun m e => min m e.likelihood) r.likelihood,
              results := (r :: rest).map (fun e =>
                ⟨e.value, e.likelihood, e.likelihood -
                  rest.foldl (fun m e => min m e.likelihood) r.likelihood⟩) } := by
  simp only [scan1dRun, hmn, hmx, hst, hrw, Bind.bind, Except.bind, if_neg hlt]

theorem scan1dRun_eval_err (cfg : ScanParamConfig) (fixed : CouplingParams)
    (engine : ℕ → EngineResult) {mn mx st : ℚ}
    (hmn : validateNumber cfg.min "param.min" (-100) 100 = Except.ok mn)
    (hmx : validateNumber cfg.max "param.max" (-100) 100 = Except.ok mx)
    (hst : validateNumber cfg.steps "param.steps" 1 1000 = Except.ok st)
    (hlt : ¬ mx ≤ mn) {e : JSError}
    (hrw : runWorkers fixed cfg.name (scanValues mn mx st) engine 0 =
      Except.error e) :
    scan1dRun cfg fixed engine = Except.error e := by
  simp only [scan1dRun, hmn, hmx, hst, hrw, Bind.bind, Except.bind, if_neg hlt]

theorem scan1dRun_ok_results_ne_nil {cfg : ScanParamConfig}
    {fixed : CouplingParams} {engine : ℕ → EngineResult} {out : Scan1DOut}
    (h : scan1dRun cfg fixed engine = Except.ok out) : out.results ≠ [] := by
  cases hmn : validateNumber cfg.min "param.min" (-100) 100 with
  | error e => simp [scan1dRun, hmn, Bind.bind, Except.bind] at h
  | ok mn =>
  cases hmx : validateNumber cfg.max "param.max" (-100) 100 with
  | error e => simp [scan1dRun, hmn, hmx, Bind.bind, Except.bind] at h
  | ok mx =>
  cases hst : validateNumber cfg.steps "param.steps" 1 1000 with
  | error e => simp [scan1dRun, hmn, hmx, hst, Bind.bind, Except.bind] at h
  | ok st =>
  by_cases hle : mx ≤ mn
  · simp [scan1dRun, hmn, hmx, hst, hle, Bind.bind, Except.bind] at h
  · cases hrw : runWorkers fixed cfg.name (scanValues mn mx st) engine 0 with
    | error e =>
        rw [scan1dRun_eval_err cfg fixed engine hmn hmx hst hle hrw] at h
        cases h
    | ok rs =>
        rw [scan1dRun_eval cfg fixed engine hmn hmx hst hle hrw] at h
        cases hfm : rs.filterMap id with
        | nil => rw [hfm] at h; cases h
        | cons r rest =>
            rw [hfm] at h
            injection h with h'
            rw [← h']
            simp

/-- The rejection message of a failed engine invocation is never the
aggregate "All scan points failed" error. -/
theorem engineErr_ne_allfailed (c : ℤ) (s : String) :
    engineErr c s ≠ jsErr "All scan points failed" := by
  intro h
  have hm : "Lilith exited with code " ++ toString c ++ ": " ++ s =
      "All scan points failed" := congrArg JSError.message h
  have hlen := congrArg String.length hm
  rw [String.length_append, String.length_append, String.length_append] at hlen
  rw [show "Lilith exited with code ".length = 24 from rfl,
    show ": ".length = 2 from rfl,
    show "All scan points failed".length = 22 from rfl] at hlen
  omega

/-- C2 (amended): under valid scan parameters whose coordinates all
serialize, (i) a point whose engine invocation fails (the process
rejects) aborts the whole scan with that rejection's error — it is not
recorded as absent; (ii) when every invocation resolves, the scan fails
with 'All scan points failed' exactly when every point's output misses
the likelihood pattern, so a single unmatched point alone does not abort
the scan; and (iii) a successful scan never returns an empty result
list. -/
theorem scan1d_failure_spec (cfg : ScanParamConfig) (fixed : CouplingParams)
    (engine : ℕ → EngineResult) {mn mx st : ℚ}
    (hmn : validateNumber cfg.min "param.min" (-100) 100 = Except.ok mn)
    (hmx : validateNumber cfg.max "param.max" (-100) 100 = Except.ok mx)
    (hst : validateNumber cfg.steps "param.steps" 1 1000 = Except.ok st)
    (hlt : ¬ mx ≤ mn)
    (hxml : ∀ v ∈ scanValues mn mx st, ∃ doc,
      generateReducedCouplingsXML (setScanParam fixed cfg.name v) =
        Except.ok doc) :
    ((∃ i, i < (scanValues mn mx st).length ∧ ∃ c s,
        engine i = EngineResult.fail c s) →
      ∃ c s, scan1dRun cfg fixed engine = Except.error (engineErr c s)) ∧
    ((∀ i, i < (scanValues mn mx st).length → ∀ c s,
        engine i ≠ EngineResult.fail c s) →
      ((scan1dRun cfg fixed engine =
          Except.error (jsErr "All scan points failed")) ↔
        ∀ i, i < (scanValues mn mx st).length →
          engine i = EngineResult.output none)) ∧
    (∀ out, scan1dRun cfg fixed engine = Except.ok out →
      out.results ≠ []) := by
  refine ⟨?_, ?_, fun out h => scan1dRun_ok_results_ne_nil h⟩
  · intro hfail
    obtain ⟨c, s, hrw⟩ := runWorkers_fail (scanValues mn mx st) engine 0 hxml
      (by
        obtain ⟨i, hi, c, s, h⟩ := hfail
        exact ⟨i, hi, c, s, by simpa using h⟩)
    exact ⟨c, s, scan1dRun_eval_err cfg fixed engine hmn hmx hst hlt hrw⟩
  · intro hnofail
    have hrw := runWorkers_all_output (scanValues mn mx st) engine 0 hxml
      (fun i hi c s => by simpa using hnofail i hi c s)
    have heval := scan1dRun_eval cfg fixed engine hmn hmx hst hlt hrw
    have hiff := expectedRow_filter_nil_iff engine (scanValues mn mx st) 0
      (fun i hi c s => by simpa using hnofail i hi c s)
    constructor
    · intro herr i hi
      have hfm : (expectedRow engine (scanValues mn mx st) 0).filterMap id =
          [] := by
        cases hfm : (expectedRow engine (scanValues mn mx st) 0).filterMap id
          with
        | nil => rfl
        | cons r rest => rw [heval, hfm] at herr; cases herr
      have := hiff.mp hfm i hi
      simpa using this
    · intro hall
      have hfm : (expectedRow engine (scanValues mn mx st) 0).filterMap id =
          [] := hiff.mpr (fun i hi => by simpa using hall i hi)
      rw [heval, hfm]

theorem genCV (q : ℚ) (h1 : -100 ≤ q) (h2 : q ≤ 100) :
    ∃ doc, generateReducedCouplingsXML
      (setScanParam {} "CV" (JSNum.fin q)) = Except.ok doc :=
  ⟨_, genRC_eval _ rfl (validateCoupling_num_eval "CV" h1 h2) rfl rfl rfl rfl
    rfl rfl rfl rfl rfl rfl rfl⟩

theorem scanValues_1_2_2 : scanValues 1 2 2 = [JSNum.fin 1, JSNum.fin 2] := by
  have hstep : jsDiv (JSNum.fin ((2 : ℚ) - 1)) (JSNum.fin ((2 : ℚ) - 1)) =
      JSNum.fin 1 := by
    rw [show ((2 : ℚ) - 1) = 1 by norm_num, jsDiv_fin_ne one_ne_zero]
    norm_num
  simp only [scanValues, hstep, show jsLengthOf 2 = 2 from rfl,
    show List.range 2 = [0, 1] from rfl, List.map_cons, List.map_nil]
  norm_num [jsMul, jsAdd]

theorem xml_1_2_2 : ∀ v ∈ scanValues 1 2 2, ∃ doc,
    generateReducedCouplingsXML (setScanParam {} "CV" v) = Except.ok doc := by
  rw [scanValues_1_2_2]
  intro v hv
  rcases List.mem_cons.mp hv with rfl | hv
  · exact genCV 1 (by norm_num) (by norm_num)
  · rcases List.mem_cons.mp hv with rfl | hv
    · exact genCV 2 (by norm_num) (by norm_num)
    · cases hv

/-- C2 counterexample: a two-point scan in which the first point's
engine invocation fails (exit code 1) aborts with that rejection even
though the second point parses fine — contradicting the claim that a
failed invocation is recorded as absent without aborting and that a
top-level error occurs only when all points are absent. -/
theorem scan1d_failure_counterexample :
    scan1dRun ⟨"CV", JSValue.num (JSNum.fin 1), JSValue.num (JSNum.fin 2),
        JSValue.num (JSNum.fin 2)⟩ {}
      (fun i => if i = 0 then EngineResult.fail 1 "boom"
        else EngineResult.output (some 1)) =
      Except.error (engineErr 1 "boom") ∧
    engineErr 1 "boom" ≠ jsErr "All scan points failed" := by
  have hmn := (validateNumber_ok_iff (JSValue.num (JSNum.fin 1)) "param.min"
    (-100) 100 1).mpr ⟨rfl, by norm_num, by norm_num⟩
  have hmx := (validateNumber_ok_iff (JSValue.num (JSNum.fin 2)) "param.max"
    (-100) 100 2).mpr ⟨rfl, by norm_num, by norm_num⟩
  have hst := (validateNumber_ok_iff (JSValue.num (JSNum.fin 2)) "param.steps"
    1 1000 2).mpr ⟨rfl, by norm_num, by norm_num⟩
  have hlt : ¬ (2 : ℚ) ≤ 1 := by norm_num
  obtain ⟨doc1, hdoc1⟩ := genCV 1 (by norm_num) (by norm_num)
  have hwfail : scan1dWorker {} "CV" (JSNum.fin 1)
      (EngineResult.fail 1 "boom") = Except.error (engineErr 1 "boom") := by
    simpa using scan1dWorker_eval hdoc1 (EngineResult.fail 1 "boom")
  have hrw : runWorkers {} "CV" (scanValues 1 2 2)
      (fun i => if i = 0 then EngineResult.fail 1 "boom"
        else EngineResult.output (some 1)) 0 =
      Except.error (engineErr 1 "boom") := by
    rw [scanValues_1_2_2]
    simp [runWorkers, hwfail, Bind.bind, Except.bind]
  exact ⟨scan1dRun_eval_err _ {} _ hmn hmx hst hlt hrw,
    engineErr_ne_allfailed 1 "boom"⟩

/-- Witness for C2: on a two-point scan whose engine runs all resolve
without a likelihood match, the amended theorem yields the aggregate
'All scan points failed' error. -/
theorem scan1d_failure_spec_witness :
    scan1dRun ⟨"CV", JSValue.num (JSNum.fin 1), JSValue.num (JSNum.fin 2),
        JSValue.num (JSNum.fin 2)⟩ {}
      (fun _ => EngineResult.output none) =
      Except.error (jsErr "All scan points failed") := by
  have h := scan1d_failure_spec
    ⟨"CV", JSValue.num (JSNum.fin 1), JSValue.num (JSNum.fin 2),
      JSValue.num (JSNum.fin 2)⟩ {} (fun _ => EngineResult.output none)
    ((validateNumber_ok_iff (JSValue.num (JSNum.fin 1)) "param.min"
      (-100) 100 1).mpr ⟨rfl, by norm_num, by norm_num⟩)
    ((validateNumber_ok_iff (JSValue.num (JSNum.fin 2)) "param.max"
      (-100) 100 2).mpr ⟨rfl, by norm_num, by norm_num⟩)
    ((validateNumber_ok_iff (JSValue.num (JSNum.fin 2)) "param.steps"
      1 1000 2).mpr ⟨rfl, by norm_num, by norm_num⟩)
    (by norm_num) xml_1_2_2
  exact h.2.1 (fun i hi c s => by simp) |>.mpr (fun i hi => rfl)

/-- Scan configuration of the spec's 1-D example:
`min = 0.8, max = 1.2, steps = 5` over CV. -/
def cfg5 : ScanParamConfig :=
  ⟨"CV", JSValue.num (JSNum.fin (4/5)), JSValue.num (JSNum.fin (6/5)),
   JSValue.num (JSNum.fin 5)⟩

/-- Minimum of the five likelihoods, associated as `Math.min` folds. -/
def minOf5 (L : ℕ → ℚ) : ℚ :=
  min (min (min (min (L 0) (L 1)) (L 2)) (L 3)) (L 4)

theorem scanValues_C3 : scanValues (4/5) (6/5) 5 =
    [JSNum.fin (4/5), JSNum.fin (9/10), JSNum.fin 1, JSNum.fin (11/10),
     JSNum.fin (6/5)] := by
  have hstep : jsDiv (JSNum.fin ((6/5 : ℚ) - 4/5)) (JSNum.fin ((5 : ℚ) - 1)) =
      JSNum.fin (1/10) := by
    rw [show ((6/5 : ℚ) - 4/5) = 2/5 by norm_num,
      show ((5 : ℚ) - 1) = 4 by norm_num,
      jsDiv_fin_ne (by norm_num : (4 : ℚ) ≠ 0)]
    norm_num
  simp only [scanValues, hstep, show jsLengthOf 5 = 5 from rfl,
    show List.range 5 = [0, 1, 2, 3, 4] from rfl, List.map_cons, List.map_nil]
  norm_num [jsMul, jsAdd]

theorem scan1d_profile_eval (L : ℕ → ℚ) :
    scan1dRun cfg5 {} (fun i => EngineResult.output (some (L i))) =
      Except.ok
        { parameter := "CV", minimumLikelihood := minOf5 L,
          results := [⟨JSNum.fin (4/5), L 0, L 0 - minOf5 L⟩,
            ⟨JSNum.fin (9/10), L 1, L 1 - minOf5 L⟩,
            ⟨JSNum.fin 1, L 2, L 2 - minOf5 L⟩,
            ⟨JSNum.fin (11/10), L 3, L 3 - minOf5 L⟩,
            ⟨JSNum.fin (6/5), L 4, L 4 - minOf5 L⟩] } := by
  have hmn := (validateNumber_ok_iff (JSValue.num (JSNum.fin (4/5)))
    "param.min" (-100) 100 (4/5)).mpr ⟨rfl, by norm_num, by norm_num⟩
  have hmx := (validateNumber_ok_iff (JSValue.num (JSNum.fin (6/5)))
    "param.max" (-100) 100 (6/5)).mpr ⟨rfl, by norm_num, by norm_num⟩
  have hst := (validateNumber_ok_iff (JSValue.num (JSNum.fin 5))
    "param.steps" 1 1000 5).mpr ⟨rfl, by norm_num, by norm_num⟩
  have hlt : ¬ (6/5 : ℚ) ≤ 4/5 := by norm_num
  have hxml : ∀ v ∈ scanValues (4/5) (6/5) 5, ∃ doc,
      generateReducedCouplingsXML (setScanParam {} "CV" v) = Except.ok doc := by
    rw [scanValues_C3]
    intro v hv
    fin_cases hv <;> exact genCV _ (by norm_num) (by norm_num)
  have hrw := runWorkers_all_output (scanValues (4/5) (6/5) 5)
    (fun i => EngineResult.output (some (L i))) 0 hxml (fun i hi c s => by simp)
  have hexp : expectedRow (fun i => EngineResult.output (some (L i)))
      (scanValues (4/5) (6/5) 5) 0 =
      [some ⟨JSNum.fin (4/5), L 0⟩, some ⟨JSNum.fin (9/10), L 1⟩,
       some ⟨JSNum.fin 1, L 2⟩, some ⟨JSNum.fin (11/10), L 3⟩,
       some ⟨JSNum.fin (6/5), L 4⟩] := by
    rw [scanValues_C3]
    simp [expectedRow]
  rw [hexp] at hrw
  have heval := scan1dRun_eval cfg5 {}
    (fun i => EngineResult.output (some (L i))) hmn hmx hst hlt hrw
  rw [heval]
  have hfm : List.filterMap id
      [some (⟨JSNum.fin (4/5), L 0⟩ : ScanEntry),
       some ⟨JSNum.fin (9/10), L 1⟩, some ⟨JSNum.fin 1, L 2⟩,
       some ⟨JSNum.fin (11/10), L 3⟩, some ⟨JSNum.fin (6/5), L 4⟩] =
      [⟨JSNum.fin (4/5), L 0⟩, ⟨JSNum.fin (9/10), L 1⟩, ⟨JSNum.fin 1, L 2⟩,
       ⟨JSNum.fin (11/10), L 3⟩, ⟨JSNum.fin (6/5), L 4⟩] := rfl
  rw [hfm]
  simp only [List.foldl, List.map_cons, List.map_nil, minOf5]
  rfl

/-- C3 (amended): for the 1-D scan `min = 0.8, max = 1.2, steps = 5`
with every engine invocation succeeding with a parsed likelihood, the
result has exactly 5 entries, in generation order with strictly
ascending coordinates 0.8, 0.9, 1.0, 1.1, 1.2, every entry's
deltaLikelihood equals its likelihood minus the minimum likelihood and
is nonnegative, and at least one entry has deltaLikelihood 0 (exactly
one only when the minimum is attained uniquely). -/
theorem scan1d_profile_spec (L : ℕ → ℚ) :
    scan1dRun cfg5 {} (fun i => EngineResult.output (some (L i))) =
      Except.ok
        { parameter := "CV", minimumLikelihood := minOf5 L,
          results := [⟨JSNum.fin (4/5), L 0, L 0 - minOf5 L⟩,
            ⟨JSNum.fin (9/10), L 1, L 1 - minOf5 L⟩,
            ⟨JSNum.fin 1, L 2, L 2 - minOf5 L⟩,
            ⟨JSNum.fin (11/10), L 3, L 3 - minOf5 L⟩,
            ⟨JSNum.fin (6/5), L 4, L 4 - minOf5 L⟩] } ∧
    (∀ j, j < 5 → 0 ≤ L j - minOf5 L) ∧
    (∃ j, j < 5 ∧ L j - minOf5 L = 0) := by
  refine ⟨scan1d_profile_eval L, ?_, ?_⟩
  · intro j hj
    rw [sub_nonneg, minOf5]
    interval_cases j
    · exact (min_le_left _ _).trans ((min_le_left _ _).trans
        ((min_le_left _ _).trans (min_le_left _ _)))
    · exact (min_le_left _ _).trans ((min_le_left _ _).trans
        ((min_le_left _ _).trans (min_le_right _ _)))
    · exact (min_le_left _ _).trans ((min_le_left _ _).trans
        (min_le_right _ _))
    · exact (min_le_left _ _).trans (min_le_right _ _)
    · exact min_le_right _ _
  · unfold minOf5
    rcases min_choice (min (min (min (L 0) (L 1)) (L 2)) (L 3)) (L 4)
      with h4 | h4
    · rcases min_choice (min (min (L 0) (L 1)) (L 2)) (L 3) with h3 | h3
      · rcases min_choice (min (L 0) (L 1)) (L 2) with h2 | h2
        · rcases min_choice (L 0) (L 1) with h1 | h1
          · exact ⟨0, by norm_num, by rw [h4, h3, h2, h1, sub_self]⟩
          · exact ⟨1, by norm_num, by rw [h4, h3, h2, h1, sub_self]⟩
        · exact ⟨2, by norm_num, by rw [h4, h3, h2, sub_self]⟩
      · exact ⟨3, by norm_num, by rw [h4, h3, sub_self]⟩
    · exact ⟨4, by norm_num, by rw [h4, sub_self]⟩

/-- C3 counterexample: when all five points report the same likelihood,
every entry has deltaLikelihood 0, so five entries — not exactly one —
attain delta 0. -/
theorem scan1d_profile_counterexample :
    scan1dRun cfg5 {} (fun _ => EngineResult.output (some 1)) =
      Except.ok
        { parameter := "CV", minimumLikelihood := 1,
          results := [⟨JSNum.fin (4/5), 1, 0⟩, ⟨JSNum.fin (9/10), 1, 0⟩,
            ⟨JSNum.fin 1, 1, 0⟩, ⟨JSNum.fin (11/10), 1, 0⟩,
            ⟨JSNum.fin (6/5), 1, 0⟩] } ∧
    ([(⟨JSNum.fin (4/5), 1, 0⟩ : ScanEntryDelta), ⟨JSNum.fin (9/10), 1, 0⟩,
      ⟨JSNum.fin 1, 1, 0⟩, ⟨JSNum.fin (11/10), 1, 0⟩,
      ⟨JSNum.fin (6/5), 1, 0⟩].countP
        (fun e => decide (e.deltaLikelihood = 0))) = 5 ∧
    (5 : ℕ) ≠ 1 := by
  refine ⟨?_, ?_, by norm_num⟩
  · have h := scan1d_profile_eval (fun _ => 1)
    simpa [minOf5] using h
  · rfl

/-- The thirteen recognized numeric scan fields. -/
def recognizedScanFields : List String :=
  ["CV", "CF", "Ct", "Cb", "Cc", "Ctau", "Cmu", "Cg", "Cgamma", "CZgamma",
   "BRinv", "BRundet", "mass"]

theorem genRC_nan_fails (p : CouplingParams) (name : String)
    (hname : name ∈ recognizedScanFields) :
    ∃ e, generateReducedCouplingsXML (setScanParam p name JSNum.nan) =
      Except.error e := by
  cases hg : generateReducedCouplingsXML (setScanParam p name JSNum.nan) with
  | error e => exact ⟨e, rfl⟩
  | ok d =>
      exfalso
      obtain ⟨mass, cv, cf, ct, cb, cc2, ctau, cmu, bi, bu, gg, gam, zgam,
        hm, hcv, hcf, hct, hcb, hcc, hctau, hcmu, hbi, hbu, hgg, hgam, hzg,
        -⟩ := genRC_ok_inv hg
      fin_cases hname
      · exact absurd hcv (by
          simp [setScanParam, validateCoupling, validateNumber, Except.map])
      · exact absurd hcf (by
          simp [setScanParam, validateCoupling, validateNumber, Except.map])
      · exact absurd hct (by
          simp [setScanParam, validateCoupling, validateNumber, Except.map])
      · exact absurd hcb (by
          simp [setScanParam, validateCoupling, validateNumber, Except.map])
      · exact absurd hcc (by
          simp [setScanParam, validateCoupling, validateNumber, Except.map])
      · exact absurd hctau (by
          simp [setScanParam, validateCoupling, validateNumber, Except.map])
      · exact absurd hcmu (by
          simp [setScanParam, validateCoupling, validateNumber, Except.map])
      · exact absurd hgg (by
          simp [setScanParam, loopCoupling, validateCoupling, validateNumber,
            Except.map, Bind.bind, Except.bind])
      · exact absurd hgam (by
          simp [setScanParam, loopCoupling, validateCoupling, validateNumber,
            Except.map, Bind.bind, Except.bind])
      · exact absurd hzg (by
          simp [setScanParam, loopCoupling, validateCoupling, validateNumber,
            Except.map, Bind.bind, Except.bind])
      · exact absurd hbi (by
          simp [setScanParam, validateBranchingRatio, validateNumber,
            Except.map])
      · exact absurd hbu (by
          simp [setScanParam, validateBranchingRatio, validateNumber,
            Except.map])
      · exact absurd hm (by
          simp [setScanParam, validateMass, validateNumber])

theorem scanValues_steps_one {mn mx : ℚ} (h : mn < mx) :
    scanValues mn mx 1 = [JSNum.nan] := by
  have hstep : jsDiv (JSNum.fin (mx - mn)) (JSNum.fin ((1 : ℚ) - 1)) =
      JSNum.inf := by
    rw [show ((1 : ℚ) - 1) = 0 by norm_num]
    simp [jsDiv, sub_pos.mpr h]
  simp only [scanValues, hstep, show jsLengthOf 1 = 1 from rfl,
    show List.range 1 = [0] from rfl, List.map_cons, List.map_nil]
  norm_num [jsMul, jsAdd]

/-- C10: `scan_1d` accepts `steps = 1` (the validated range is
`[1, 1000]`) with `min < max`, but whenever the scanned parameter is one
of the thirteen recognized numeric fields the step is Infinity, the only
coordinate is `min + 0 * Infinity = NaN`, serialization rejects NaN as
not a finite number, and the whole scan errors without consulting the
engine. -/
theorem scan1d_steps_one_fails (name : String)
    (hname : name ∈ recognizedScanFields) (fixed : CouplingParams)
    (engine : ℕ → EngineResult) (mn mx : ℚ)
    (h1 : -100 ≤ mn) (h2 : mn < mx) (h3 : mx ≤ 100) :
    ∃ e, scan1dRun ⟨name, JSValue.num (JSNum.fin mn),
      JSValue.num (JSNum.fin mx), JSValue.num (JSNum.fin 1)⟩ fixed engine =
      Except.error e := by
  have hmn := (validateNumber_ok_iff (JSValue.num (JSNum.fin mn)) "param.min"
    (-100) 100 mn).mpr ⟨rfl, h1, by linarith⟩
  have hmx := (validateNumber_ok_iff (JSValue.num (JSNum.fin mx)) "param.max"
    (-100) 100 mx).mpr ⟨rfl, by linarith, h3⟩
  have hst := (validateNumber_ok_iff (JSValue.num (JSNum.fin 1)) "param.steps"
    1 1000 1).mpr ⟨rfl, by norm_num, by norm_num⟩
  have hlt : ¬ mx ≤ mn := not_le.mpr h2
  obtain ⟨e, he⟩ := genRC_nan_fails fixed name hname
  have hworker : scan1dWorker fixed name JSNum.nan (engine 0) =
      Except.error e := by
    simp [scan1dWorker, he, Bind.bind, Except.bind]
  have hrw : runWorkers fixed name (scanValues mn mx 1) engine 0 =
      Except.error e := by
    rw [scanValues_steps_one h2]
    simp [runWorkers, hworker, Bind.bind, Except.bind]
  exact ⟨e, scan1dRun_eval_err _ fixed engine hmn hmx hst hlt hrw⟩

def isErr {α : Type} : Except JSError α → Bool
  | Except.error _ => true
  | Except.ok _ => false

/-- Witness for C10: the one-step scan over CV on `[0.8, 1.2]` errors. -/
theorem scan1d_steps_one_fails_witness :
    isErr (scan1dRun ⟨"CV", JSValue.num (JSNum.fin (4/5)),
      JSValue.num (JSNum.fin (6/5)), JSValue.num (JSNum.fin 1)⟩ {}
      (fun _ => EngineResult.output none)) = true := by
  obtain ⟨e, he⟩ := scan1d_steps_one_fails "CV" (by decide) {}
    (fun _ => EngineResult.output none) (4/5) (6/5) (by norm_num)
    (by norm_num) (by norm_num)
  rw [he]
  rfl

/-- Witness for C3: with all likelihoods equal to 2, entry 0's delta is
nonnegative. -/
theorem scan1d_profile_spec_witness :
    0 ≤ (2 : ℚ) - minOf5 (fun _ => 2) :=
  (scan1d_profile_spec (fun _ => 2)).2.1 0 (by norm_num)
